import Mathlib

/-!
Verification of the regulatory-impact-chain propagation core.

This file gives a shallow embedding of the TypeScript propagation engine,
risk aggregator, timeline comparison engine and in-memory cache of the
repository, and proves or refutes the frozen claims about them.

Conventions of the embedding:
* JavaScript numbers are idealised as rationals; all constants of the
  source (0.6, 0.9, 1.2, ...) are exact decimals, so every comparison
  the claims exercise is reproduced faithfully.
* JavaScript Map objects are insertion-ordered association lists; Map.set
  on an existing key updates in place, otherwise it appends.
* The recursion of propagateBFS is bounded by maxDepth: every recursive
  call increases depth by one and the function returns when
  depth >= maxDepth.  The embedding threads the remaining budget
  fuel = maxDepth - depth, so the fuel-zero base case coincides with the
  depth guard of the source and the function is structurally total.
* Database name lookups (getEntityInfo) only affect display names, which
  no claim mentions; the displayName field is omitted.
-/

set_option autoImplicit false

namespace RegulatoryImpactChain

/-! ## Association-list primitives

JavaScript Map objects are modelled as insertion-ordered association
lists.  Map.get returns the first binding of the key; Map.set replaces
the first binding in place or appends a new one; Map.delete removes the
first binding. -/

section Assoc

variable {κ β : Type} [DecidableEq κ]

/-- Map.get. -/
def assocFind (k : κ) (m : List (κ × β)) : Option β :=
  (m.find? (fun p => p.1 = k)).map (fun p => p.2)

/-- Map.set. -/
def assocSet (k : κ) (v : β) : List (κ × β) → List (κ × β)
  | [] => [(k, v)]
  | p :: ps => if p.1 = k then (k, v) :: ps else p :: assocSet k v ps

/-- In-place update of an existing binding. -/
def assocUpdate (k : κ) (f : β → β) : List (κ × β) → List (κ × β)
  | [] => []
  | p :: ps => if p.1 = k then (k, f p.2) :: ps else p :: assocUpdate k f ps

/-- Map.delete. -/
def assocErase (k : κ) : List (κ × β) → List (κ × β)
  | [] => []
  | p :: ps => if p.1 = k then ps else p :: assocErase k ps

end Assoc

/-! ## JavaScript condition values

Condition objects are free-form records.  The repository stores booleans
and numbers in them; we model exactly those value shapes together with
the JavaScript truthiness rules the engine relies on. -/

/-- A JavaScript value appearing in an edge condition object. -/
inductive JSVal where
  | vBool (b : Bool)
  | vNum (q : ℚ)
  deriving DecidableEq, Repr

/-- JavaScript truthiness: false and 0 are falsy. -/
def JSVal.truthy : JSVal → Bool
  | .vBool b => b
  | .vNum q => decide (q ≠ 0)

/-- JavaScript numeric coercion for the values we model. -/
def JSVal.toNum : JSVal → ℚ
  | .vBool b => if b then 1 else 0
  | .vNum q => q

/-- Property lookup on a condition object (absent key reads as undefined). -/
def jsLookup (k : String) (c : List (String × JSVal)) : Option JSVal :=
  (c.find? (fun p => p.1 = k)).map (fun p => p.2)

/-- Truthiness of an optional value; undefined is falsy. -/
def truthyOpt : Option JSVal → Bool
  | none => false
  | some v => v.truthy

/-- Numeric value of an optional value (only consulted when truthy). -/
def numOpt : Option JSVal → ℚ
  | none => 0
  | some v => v.toNum

/-- PropagationEngine.evaluateConditions, translated from the source:
if (conditions.required) return conditions.required === true;
if (conditions.threshold) return threshold > 0; return true.
The two if-guards are JavaScript truthiness tests. -/
def evaluateConditions (conditions : List (String × JSVal)) : Bool :=
  let req := jsLookup "required" conditions
  if truthyOpt req then decide (req = some (JSVal.vBool true))
  else
    let th := jsLookup "threshold" conditions
    if truthyOpt th then decide (0 < numOpt th)
    else true

/-- Condition evaluation as claim C1 words it: the required key, when
present, decides alone; else the threshold key, when present, decides;
else pass. -/
def evaluateConditionsClaim (conditions : List (String × JSVal)) : Bool :=
  match jsLookup "required" conditions with
  | some v => decide (v = JSVal.vBool true)
  | none =>
    match jsLookup "threshold" conditions with
    | some v => decide (0 < v.toNum)
    | none => true

/-- The threshold clause of the amended claim: the threshold key is
consulted only when its value is truthy, in which case the edge passes
iff its numeric value is strictly positive; otherwise the edge passes. -/
def evaluateThresholdAmended (conditions : List (String × JSVal)) : Bool :=
  match jsLookup "threshold" conditions with
  | some w => if w.truthy then decide (0 < w.toNum) else true
  | none => true

/-- Condition evaluation as the amended claim words it: the required key
is consulted only when its value is truthy, in which case the edge passes
iff the value is the boolean true; otherwise the threshold clause
applies. -/
def evaluateConditionsAmended (conditions : List (String × JSVal)) : Bool :=
  match jsLookup "required" conditions with
  | some v =>
    if v.truthy then decide (v = JSVal.vBool true)
    else evaluateThresholdAmended conditions
  | none => evaluateThresholdAmended conditions

/-! ## Graph data model -/

/-- The closed set of node types (Prisma enum EntityType). -/
inductive EntityType where
  | REGULATION
  | DEPARTMENT
  | BUDGET
  | SERVICE
  | KPI
  deriving DecidableEq, Repr

/-- Edge impact types (Prisma enum constrained by the zod schema). -/
inductive ImpactType where
  | Direct
  | Indirect
  | Conditional
  deriving DecidableEq, Repr

/-- SEVERITY_WEIGHTS from the source. -/
def SEVERITY_WEIGHTS : EntityType → ℚ
  | .DEPARTMENT => 1
  | .BUDGET => 9/10
  | .SERVICE => 4/5
  | .KPI => 7/10
  | .REGULATION => 6/5

/-- IMPACT_TYPE_MULTIPLIERS from the source. -/
def IMPACT_TYPE_MULTIPLIERS : ImpactType → ℚ
  | .Direct => 1
  | .Indirect => 3/5
  | .Conditional => 3/10

/-- The canonical node identity: the (type, id) pair behind the string
key type:id used by the source. -/
abbrev NodeKey := EntityType × String

/-- An ImpactEdge row as the engine consumes it. -/
structure ImpactEdge where
  sourceType : EntityType
  sourceId : String
  targetType : EntityType
  targetId : String
  impactWeight : ℚ
  impactType : ImpactType
  conditions : Option (List (String × JSVal))
  isActive : Bool
  deriving DecidableEq, Repr

def ImpactEdge.sourceKey (e : ImpactEdge) : NodeKey := (e.sourceType, e.sourceId)

def ImpactEdge.targetKey (e : ImpactEdge) : NodeKey := (e.targetType, e.targetId)

/-- The outgoing adjacency list of buildDependencyGraph: the active edges
of the tenant whose source is the given key, in stored order.  The
builder queries isActive edges and buckets them by source key preserving
list order, which this filter reproduces. -/
def outgoingEdges (allEdges : List ImpactEdge) (k : NodeKey) : List ImpactEdge :=
  allEdges.filter (fun e => e.isActive && decide (e.sourceKey = k))

/-! ## Propagation engine -/

/-- A PropagationPath entry (one traversed edge). -/
structure PathEntry where
  sourceType : EntityType
  sourceId : String
  targetType : EntityType
  targetId : String
  weight : ℚ
  impactType : ImpactType
  deriving DecidableEq, Repr

/-- The (source, target) key pair of a traversed edge, the datum the
visited set tracks. -/
def PathEntry.visitKey (pe : PathEntry) : NodeKey × NodeKey :=
  ((pe.sourceType, pe.sourceId), (pe.targetType, pe.targetId))

/-- A PropagationNode (displayName omitted, see module comment). -/
structure PropNode where
  id : String
  type : EntityType
  impactScore : ℚ
  depth : ℕ
  path : List PathEntry
  deriving DecidableEq, Repr

/-- The mutable state of one propagation run: the nodes map (insertion
ordered), the accepted edge list, and the visited edge-key set. -/
structure PropState where
  nodes : List (NodeKey × PropNode)
  edges : List PathEntry
  visited : List (NodeKey × NodeKey)
  deriving DecidableEq, Repr

/-- Engine options (tenantId omitted: the graph is passed explicitly). -/
structure PropConfig where
  maxDepth : ℕ
  impactThreshold : ℚ
  includeIndirect : Bool
  deriving DecidableEq, Repr

/-- The engine defaults: maxDepth 10, impactThreshold 0.01,
includeIndirect true. -/
def defaultConfig : PropConfig :=
  { maxDepth := 10, impactThreshold := 1/100, includeIndirect := true }

/-- Map.get on the nodes map. -/
def lookupNode (k : NodeKey) (m : List (NodeKey × PropNode)) : Option PropNode :=
  assocFind k m

/-- In-place update of an existing key of the nodes map (JavaScript Map
semantics: order preserved). -/
def updateNode (k : NodeKey) (f : PropNode → PropNode)
    (m : List (NodeKey × PropNode)) : List (NodeKey × PropNode) :=
  assocUpdate k f m

/-- The node-map update of one accepted edge: an existing target takes
the max of its score and the propagated impact and appends the edge to
its path; a new target is inserted with the propagated impact at
depth + 1. -/
def upsertTarget (tKey : NodeKey) (e : ImpactEdge) (pe : PathEntry) (next : ℚ)
    (depth : ℕ) (m : List (NodeKey × PropNode)) : List (NodeKey × PropNode) :=
  match lookupNode tKey m with
  | some _ =>
    updateNode tKey
      (fun n => { n with impactScore := max n.impactScore next, path := n.path ++ [pe] }) m
  | none =>
    m ++ [(tKey, { id := e.targetId, type := e.targetType, impactScore := next,
                   depth := depth + 1, path := [pe] })]

/-- The inactive / indirect-excluded / conditional-unmet skip tests of the
edge loop, in source order.  Conditions are evaluated only when the edge
is Conditional and its conditions object is non-null (a JavaScript
truthiness test on the object). -/
def edgeSkipped (P : PropConfig) (e : ImpactEdge) : Bool :=
  if !e.isActive then true
  else if e.impactType = ImpactType.Indirect && !P.includeIndirect then true
  else
    match e.conditions with
    | some c => e.impactType = ImpactType.Conditional && !evaluateConditions c
    | none => false

/-- The PathEntry recorded for an accepted edge. -/
def mkPathEntry (cur : NodeKey) (e : ImpactEdge) : PathEntry :=
  { sourceType := cur.1, sourceId := cur.2, targetType := e.targetType,
    targetId := e.targetId, weight := e.impactWeight,
    impactType := e.impactType }

/-- The propagated impact of one edge: current impact times edge weight
times impact-type multiplier times target severity weight. -/
def propagatedImpact (imp : ℚ) (e : ImpactEdge) : ℚ :=
  imp * e.impactWeight * IMPACT_TYPE_MULTIPLIERS e.impactType *
    SEVERITY_WEIGHTS e.targetType

/-- The type of the recursive expansion call the edge loop performs on
an accepted target: (target key, propagated impact, next depth, state). -/
abbrev ExpandFn := NodeKey → ℚ → ℕ → PropState → PropState

/-- The body of the edge loop for one edge: filter, mark visited,
threshold-check, append the edge, merge the target node, and expand the
target through the given recursive call, exactly in the order of the
source. -/
def bfsEdge (P : PropConfig) (expand : ExpandFn) (e : ImpactEdge)
    (cur : NodeKey) (imp : ℚ) (depth : ℕ) (st : PropState) : PropState :=
  if edgeSkipped P e then st
  else if (cur, e.targetKey) ∈ st.visited then st
  else if propagatedImpact imp e < P.impactThreshold then
    { st with visited := (cur, e.targetKey) :: st.visited }
  else
    expand e.targetKey (propagatedImpact imp e) (depth + 1)
      { nodes := upsertTarget e.targetKey e (mkPathEntry cur e)
          (propagatedImpact imp e) depth st.nodes,
        edges := st.edges ++ [mkPathEntry cur e],
        visited := (cur, e.targetKey) :: st.visited }

/-- The for-loop over the outgoing edges of the current node. -/
def bfsEdges (P : PropConfig) (expand : ExpandFn) (es : List ImpactEdge)
    (cur : NodeKey) (imp : ℚ) (depth : ℕ) (st : PropState) : PropState :=
  match es with
  | [] => st
  | e :: rest =>
    bfsEdges P expand rest cur imp depth (bfsEdge P expand e cur imp depth st)

/-- One call of propagateBFS: returns at fuel 0 (that is, when
depth >= maxDepth) or when the incoming impact is below the threshold,
otherwise processes the outgoing edges of the current node, expanding
accepted targets recursively with one unit of fuel less. -/
def bfsNode (P : PropConfig) (g : List ImpactEdge) :
    (fuel : ℕ) → NodeKey → ℚ → ℕ → PropState → PropState
  | 0, _, _, _, st => st
  | fuel + 1, cur, imp, depth, st =>
    if imp < P.impactThreshold then st
    else bfsEdges P (bfsNode P g fuel) (outgoingEdges g cur) cur imp depth st

/-- A PropagationResult (executionTime and display names omitted). -/
structure PropResult where
  sourceId : String
  sourceType : EntityType
  totalAffected : ℕ
  maxDepth : ℕ
  nodes : List (NodeKey × PropNode)
  edges : List PathEntry
  deriving DecidableEq, Repr

/-- PropagationEngine.propagate: seed the result with the source node at
depth 0 and score initialImpact, run the traversal, and assemble the
result record. -/
def propagate (P : PropConfig) (g : List ImpactEdge) (sourceType : EntityType)
    (sourceId : String) (initialImpact : ℚ) : PropResult :=
  let sourceKey : NodeKey := (sourceType, sourceId)
  let st0 : PropState :=
    { nodes := [(sourceKey, { id := sourceId, type := sourceType,
                              impactScore := initialImpact, depth := 0, path := [] })],
      edges := [], visited := [] }
  let st := bfsNode P g P.maxDepth sourceKey initialImpact 0 st0
  { sourceId := sourceId,
    sourceType := sourceType,
    totalAffected := st.nodes.length - 1,
    maxDepth := (st.nodes.map (fun p => p.2.depth)).foldl max 0,
    nodes := st.nodes,
    edges := st.edges }

/-! ## Stable descending sort

JavaScript Array.sort with comparator (a, b) => key(b) - key(a) is a
stable descending sort by the key; we model it by stable insertion
sort. -/

/-- Insert an element into a descending-sorted list, before the first
element with a strictly smaller key (stability). -/
def insertDescBy {α : Type} (f : α → ℚ) (a : α) : List α → List α
  | [] => [a]
  | b :: bs => if f b < f a then a :: b :: bs else b :: insertDescBy f a bs

/-- Stable descending sort by a rational key. -/
def sortDescBy {α : Type} (f : α → ℚ) : List α → List α
  | [] => []
  | a :: as => insertDescBy f a (sortDescBy f as)

/-! ## Risk Index Calculator -/

/-- The fields of a regulation row the risk calculator reads. -/
structure Regulation where
  id : String
  severity : Option String
  deriving DecidableEq, Repr

/-- RiskIndexCalculator.getSeverityMultiplier. -/
def getSeverityMultiplier : Option String → ℚ
  | some "Critical" => 2
  | some "High" => 3/2
  | some "Medium" => 1
  | some "Low" => 1/2
  | _ => 1

/-- PropagationEngine.getRiskLevel (RISK_THRESHOLDS table). -/
def getRiskLevel (impactScore : ℚ) : String :=
  if 9/10 ≤ impactScore then "Critical"
  else if 7/10 ≤ impactScore then "High"
  else if 1/2 ≤ impactScore then "Medium"
  else "Low"

/-- The per-entity aggregation record of calculateAllRisks. -/
structure RiskAgg where
  totalRisk : ℚ
  factors : List (String × ℚ)
  deriving DecidableEq, Repr

/-- Map.set on the factors map (update in place or append). -/
def setFactor (k : String) (v : ℚ) (m : List (String × ℚ)) : List (String × ℚ) :=
  assocSet k v m

/-- Map.get on the factors map. -/
def lookupFactor (k : String) (m : List (String × ℚ)) : Option ℚ :=
  assocFind k m

/-- Map.get on the aggregation map. -/
def lookupAgg (k : NodeKey) (m : List (NodeKey × RiskAgg)) : Option RiskAgg :=
  assocFind k m

/-- In-place update of an existing key of the aggregation map. -/
def updateAgg (k : NodeKey) (f : RiskAgg → RiskAgg)
    (m : List (NodeKey × RiskAgg)) : List (NodeKey × RiskAgg) :=
  assocUpdate k f m

/-- The body of result.nodes.forEach in calculateAllRisks: ensure the
entity entry exists, add score times severity multiplier to totalRisk,
and record the per-regulation factor. -/
def addNodeRisk (mult : ℚ) (regId : String) (m : List (NodeKey × RiskAgg))
    (kn : NodeKey × PropNode) : List (NodeKey × RiskAgg) :=
  let m' :=
    match lookupAgg kn.1 m with
    | some _ => m
    | none => m ++ [(kn.1, { totalRisk := 0, factors := [] })]
  updateAgg kn.1
    (fun a => { totalRisk := a.totalRisk + kn.2.impactScore * mult,
                factors := setFactor regId kn.2.impactScore a.factors }) m'

/-- One iteration of the regulation loop of calculateAllRisks: a fresh
engine with default options propagates from the regulation with the
default initial impact 1.0 (the call passes maxDepth 10, which equals
the default), and every node of the result is folded into the
aggregation map in node-map order. -/
def processRegulation (g : List ImpactEdge) (m : List (NodeKey × RiskAgg))
    (r : Regulation) : List (NodeKey × RiskAgg) :=
  let result := propagate defaultConfig g EntityType.REGULATION r.id 1
  result.nodes.foldl (addNodeRisk (getSeverityMultiplier r.severity) r.id) m

/-- The aggregated totalRisk read off the aggregation map (0 when the
entity is absent). -/
def lookupTotal (m : List (NodeKey × RiskAgg)) (k : NodeKey) : ℚ :=
  match lookupAgg k m with
  | some a => a.totalRisk
  | none => 0

/-- A RiskCalculationResult row. -/
structure RiskCalculationResult where
  entityType : EntityType
  entityId : String
  baseRiskScore : ℚ
  adjustedRiskScore : ℚ
  riskLevel : String
  riskFactors : List (String × ℚ)
  deriving DecidableEq, Repr

/-- RiskIndexCalculator.calculateAllRisks over the active regulations of
the tenant and its dependency graph: aggregate per entity across the
per-regulation propagations, emit one result row per aggregated entity,
and sort descending by adjustedRiskScore. -/
def calculateAllRisks (regs : List Regulation) (g : List ImpactEdge) :
    List RiskCalculationResult :=
  let entityRisks := regs.foldl (processRegulation g) []
  let results := entityRisks.map (fun p =>
    { entityType := p.1.1,
      entityId := p.1.2,
      baseRiskScore := p.2.totalRisk / (regs.length : ℚ),
      adjustedRiskScore := p.2.totalRisk,
      riskLevel := getRiskLevel (p.2.totalRisk / (regs.length : ℚ)),
      riskFactors := p.2.factors })
  sortDescBy (fun r => r.adjustedRiskScore) results

/-! ## Timeline Simulation Engine: delta computation -/

/-- A SimulationDelta row. -/
structure SimulationDelta where
  entityKey : String
  beforeValue : ℚ
  afterValue : ℚ
  delta : ℚ
  percentChange : ℚ
  deriving DecidableEq, Repr

/-- Map.get with default 0 on an impact-state map. -/
def lookupQ (m : List (String × ℚ)) (k : String) : ℚ :=
  ((m.find? (fun p => p.1 = k)).map (fun p => p.2)).getD 0

/-- Keep the first occurrence of each element (the iteration order of a
JavaScript Set built from a concatenation), skipping elements already
seen. -/
def dedupFirstAux (seen : List String) : List String → List String
  | [] => []
  | a :: as => if a ∈ seen then dedupFirstAux seen as else a :: dedupFirstAux (a :: seen) as

/-- Keep the first occurrence of each element. -/
def dedupFirst (l : List String) : List String := dedupFirstAux [] l

/-- The key set of both states in Set insertion order. -/
def unionKeys (before after : List (String × ℚ)) : List String :=
  dedupFirst (before.map (fun p => p.1) ++ after.map (fun p => p.1))

/-- TimelineSimulationEngine.calculateDeltas: for every key of either
state compute after minus before, keep entries with absolute delta above
0.01 with their percent change, and sort descending by absolute
delta. -/
def calculateDeltas (before after : List (String × ℚ)) : List SimulationDelta :=
  let allKeys := unionKeys before after
  let deltas := allKeys.filterMap (fun k =>
    let beforeValue := lookupQ before k
    let afterValue := lookupQ after k
    let delta := afterValue - beforeValue
    if 1/100 < |delta| then
      some { entityKey := k, beforeValue := beforeValue, afterValue := afterValue,
             delta := delta,
             percentChange := if beforeValue ≠ 0 then delta / beforeValue * 100 else 100 }
    else none)
  sortDescBy (fun d => |d.delta|) deltas

/-! ## In-memory cache

The cache is embedded with explicit time: every operation that reads the
clock takes the current time (milliseconds) as a parameter.  Invalidation
callbacks only produce logging side effects and are omitted; the stats
record and the entry store are modelled exactly. -/

/-- A cache entry. -/
structure CacheEntry (α : Type) where
  data : α
  expiresAt : ℤ
  createdAt : ℤ
  version : ℕ
  tags : List String
  deriving DecidableEq, Repr

/-- The cache statistics record. -/
structure CacheStats where
  hits : ℕ
  misses : ℕ
  evictions : ℕ
  size : ℕ
  deriving DecidableEq, Repr

/-- The full cache state: the entry map (insertion ordered, distinct
keys) and the statistics. -/
structure CacheState (α : Type) where
  entries : List (String × CacheEntry α)
  stats : CacheStats
  deriving DecidableEq, Repr

/-- A fresh cache. -/
def emptyCache {α : Type} : CacheState α :=
  { entries := [], stats := { hits := 0, misses := 0, evictions := 0, size := 0 } }

/-- Map.get on the entry map. -/
def mapFind {α : Type} (k : String) (m : List (String × CacheEntry α)) :
    Option (CacheEntry α) :=
  assocFind k m

/-- Map.set on the entry map (update in place or append). -/
def mapSet {α : Type} (k : String) (v : CacheEntry α)
    (m : List (String × CacheEntry α)) : List (String × CacheEntry α) :=
  assocSet k v m

/-- Map.delete on the entry map. -/
def mapErase {α : Type} (k : String)
    (m : List (String × CacheEntry α)) : List (String × CacheEntry α) :=
  assocErase k m

namespace MemoryCache

/-- MemoryCache.generateKey: tenant-namespaced key. -/
def generateKey (tenantId key : String) : String :=
  tenantId ++ ":" ++ key

/-- MemoryCache.set: store under the namespaced key; the effective tag
set is the tenant id followed by the given tags; ttl defaults to thirty
minutes. -/
def set {α : Type} (now : ℤ) (tenantId key : String) (data : α)
    (ttl : Option ℤ) (tags : Option (List String)) (c : CacheState α) :
    CacheState α :=
  let fullKey := generateKey tenantId key
  let t := ttl.getD (30 * 60 * 1000)
  let entry : CacheEntry α :=
    { data := data, expiresAt := now + t, createdAt := now, version := 1,
      tags := tenantId :: tags.getD [] }
  let entries := mapSet fullKey entry c.entries
  { entries := entries, stats := { c.stats with size := entries.length } }

/-- MemoryCache.get: a miss counts a miss; an entry past its expiry is
dropped inline, counting a miss and an eviction; a live entry counts a
hit and returns its data. -/
def get {α : Type} (now : ℤ) (tenantId key : String) (c : CacheState α) :
    Option α × CacheState α :=
  let fullKey := generateKey tenantId key
  match mapFind fullKey c.entries with
  | none =>
    (none, { c with stats := { c.stats with misses := c.stats.misses + 1 } })
  | some entry =>
    if entry.expiresAt < now then
      let entries := mapErase fullKey c.entries
      let stats := { c.stats with misses := c.stats.misses + 1,
                                  evictions := c.stats.evictions + 1,
                                  size := entries.length }
      (none, { entries := entries, stats := stats })
    else
      (some entry.data, { c with stats := { c.stats with hits := c.stats.hits + 1 } })

/-- MemoryCache.invalidateByTag: remove every entry whose tag list
contains the tag, counting each removal as an eviction. -/
def invalidateByTag {α : Type} (tag : String) (c : CacheState α) :
    ℕ × CacheState α :=
  let count := (c.entries.filter (fun p => p.2.tags.contains tag)).length
  let entries := c.entries.filter (fun p => !p.2.tags.contains tag)
  let stats := { c.stats with evictions := c.stats.evictions + count,
                              size := entries.length }
  (count, { entries := entries, stats := stats })

/-- MemoryCache.invalidateByTags: union semantics, an entry is removed
when it carries any of the tags. -/
def invalidateByTags {α : Type} (tags : List String) (c : CacheState α) :
    ℕ × CacheState α :=
  let tagMatch := fun (p : String × CacheEntry α) => tags.any (fun t => p.2.tags.contains t)
  let count := (c.entries.filter tagMatch).length
  let entries := c.entries.filter (fun p => !tagMatch p)
  let stats := { c.stats with evictions := c.stats.evictions + count,
                              size := entries.length }
  (count, { entries := entries, stats := stats })

/-- MemoryCache.invalidateTenant: remove every entry whose tag list
contains the tenant id. -/
def invalidateTenant {α : Type} (tenantId : String) (c : CacheState α) :
    ℕ × CacheState α :=
  let count := (c.entries.filter (fun p => p.2.tags.contains tenantId)).length
  let entries := c.entries.filter (fun p => !p.2.tags.contains tenantId)
  let stats := { c.stats with evictions := c.stats.evictions + count,
                              size := entries.length }
  (count, { entries := entries, stats := stats })

/-- MemoryCache.invalidateRegulation: union-invalidate the regulation
tag with the global dependency-graph, risk-scores and impact-analysis
tags.  The tenantId parameter is accepted and ignored, as in the
source. -/
def invalidateRegulation {α : Type} (tenantId regulationId : String)
    (c : CacheState α) : CacheState α :=
  let _ := tenantId
  (invalidateByTags ["regulation:" ++ regulationId, "dependency-graph",
    "risk-scores", "impact-analysis"] c).2

/-- MemoryCache.invalidateEntity: union-invalidate the entity tag with
the global dependency-graph and risk-scores tags.  The tenantId
parameter is accepted and ignored, as in the source. -/
def invalidateEntity {α : Type} (tenantId entityType entityId : String)
    (c : CacheState α) : CacheState α :=
  let _ := tenantId
  (invalidateByTags ["entity:" ++ entityType ++ ":" ++ entityId,
    "dependency-graph", "risk-scores"] c).2

/-- MemoryCache.invalidateEdge: invalidate the global dependency-graph
tag.  The tenantId parameter is accepted and ignored, as in the
source. -/
def invalidateEdge {α : Type} (tenantId : String) (c : CacheState α) :
    CacheState α :=
  let _ := tenantId
  (invalidateByTag "dependency-graph" c).2

end MemoryCache

/-! ## Claim-side definitions and concrete scenarios -/

/-- A convenience constructor for an active Direct edge without
conditions. -/
def mkDirect (st : EntityType) (si : String) (tt : EntityType) (ti : String)
    (w : ℚ) : ImpactEdge :=
  { sourceType := st, sourceId := si, targetType := tt, targetId := ti,
    impactWeight := w, impactType := ImpactType.Direct, conditions := none,
    isActive := true }

/-- The score contributed for one key by one nodes map, as claim C6
words it: the node score when present, otherwise nothing. -/
def nodeContribution (mult : ℚ) (ns : List (NodeKey × PropNode)) (k : NodeKey) : ℚ :=
  match lookupNode k ns with
  | some n => n.impactScore * mult
  | none => 0

/-- The contribution of one regulation to the risk of one entity: its
propagation runs with the engine defaults (initial impact 1), and the
node score is weighted by the severity multiplier. -/
def regContribution (g : List ImpactEdge) (r : Regulation) (k : NodeKey) : ℚ :=
  nodeContribution (getSeverityMultiplier r.severity)
    (propagate defaultConfig g EntityType.REGULATION r.id 1).nodes k

/-- Claim C6 totalRisk: the sum over the active regulations of node
score times severity multiplier. -/
def totalRiskOf (regs : List Regulation) (g : List ImpactEdge) (k : NodeKey) : ℚ :=
  (regs.map (fun r => regContribution g r k)).sum

/-- The graph of the threshold-monotonicity counterexample: a weak edge
into A, a strong two-step path into A through B, and an edge from A to
T.  At threshold 1/10 the weak path visits the edge A to T while its
propagated impact fails the threshold, which blocks the later strong
path; at threshold 1/2 the weak path is cut before reaching A, and T is
reached. -/
def gMono : List ImpactEdge :=
  [ mkDirect .REGULATION "S" .DEPARTMENT "A" (1/10),
    mkDirect .REGULATION "S" .DEPARTMENT "B" 1,
    mkDirect .DEPARTMENT "B" .DEPARTMENT "A" 1,
    mkDirect .DEPARTMENT "A" .DEPARTMENT "T" (9/10) ]

/-- The graph of the traversal-order scenario: two edges out of the
source and one edge out of the first target. -/
def gOrder : List ImpactEdge :=
  [ mkDirect .REGULATION "S" .DEPARTMENT "A" 1,
    mkDirect .REGULATION "S" .DEPARTMENT "B" 1,
    mkDirect .DEPARTMENT "A" .DEPARTMENT "C" 1 ]

/-- The graph of the source-score counterexample: a cycle returning into
the source regulation, whose severity weight 1.2 amplifies the returning
impact above the initial impact. -/
def gCycleSource : List ImpactEdge :=
  [ mkDirect .REGULATION "S" .DEPARTMENT "A" 1,
    mkDirect .DEPARTMENT "A" .REGULATION "S" 1 ]

/-- The two-node cycle of the cycle-safety scenario. -/
def gTwoCycle : List ImpactEdge :=
  [ mkDirect .DEPARTMENT "A" .DEPARTMENT "B" (9/10),
    mkDirect .DEPARTMENT "B" .DEPARTMENT "A" (9/10) ]

/-- The regulations of the risk-aggregation scenario: R1 Critical and R2
Medium. -/
def scenarioRegs : List Regulation :=
  [ { id := "R1", severity := some "Critical" },
    { id := "R2", severity := some "Medium" } ]

/-- The graph of the risk-aggregation scenario: each regulation has one
Direct weight-1 edge to the same department. -/
def scenarioGraph : List ImpactEdge :=
  [ mkDirect .REGULATION "R1" .DEPARTMENT "D1" 1,
    mkDirect .REGULATION "R2" .DEPARTMENT "D1" 1 ]

/-- The aggregation map contains the regulation itself, with a factor
under its own id of at least the default seed impact 1. -/
def FactorOk (rid : String) (m : List (NodeKey × RiskAgg)) : Prop :=
  ∃ a, lookupAgg (EntityType.REGULATION, rid) m = some a ∧
    ∃ v, lookupFactor rid a.factors = some v ∧ 1 ≤ v

/-! ## Traversal invariants

The predicates used to reason about one propagation run. -/

/-- Every node already present keeps its key, identity and depth, and
its impact score can only grow (the engine takes the max over paths). -/
def NodesMono (m m' : List (NodeKey × PropNode)) : Prop :=
  ∀ k n, lookupNode k m = some n →
    ∃ n', lookupNode k m' = some n' ∧ n.impactScore ≤ n'.impactScore ∧
      n'.depth = n.depth ∧ n'.id = n.id ∧ n'.type = n.type

/-- The visited set only grows. -/
def VisitedMono (st st' : PropState) : Prop :=
  ∀ v, v ∈ st.visited → v ∈ st'.visited

/-- The edge-list invariant: accepted edges have pairwise distinct
(source, target) key pairs, and each accepted pair is in the visited
set. -/
def EdgeInv (st : PropState) : Prop :=
  (st.edges.map PathEntry.visitKey).Nodup ∧
  ∀ pe ∈ st.edges, pe.visitKey ∈ st.visited

/-- The nodes map has pairwise distinct keys. -/
def NodesNodup (st : PropState) : Prop :=
  (st.nodes.map Prod.fst).Nodup

/-- Everything a traversal step preserves. -/
def StepOk (st st' : PropState) : Prop :=
  NodesMono st.nodes st'.nodes ∧ VisitedMono st st' ∧
  (EdgeInv st → EdgeInv st') ∧ (NodesNodup st → NodesNodup st')

/-! ## Lemmas: association lists -/

section AssocLemmas

variable {κ β : Type} [DecidableEq κ]

theorem assocFind_nil (k : κ) : assocFind k ([] : List (κ × β)) = none := rfl

theorem assocFind_cons (k : κ) (p : κ × β) (ps : List (κ × β)) :
    assocFind k (p :: ps) = if p.1 = k then some p.2 else assocFind k ps := by
  by_cases h : p.1 = k <;> simp [assocFind, List.find?, h]

theorem assocFind_assocSet_self (k : κ) (v : β) (m : List (κ × β)) :
    assocFind k (assocSet k v m) = some v := by
  induction m with
  | nil => simp [assocSet, assocFind_cons]
  | cons p ps ih =>
    by_cases h : p.1 = k
    · simp [assocSet, h, assocFind_cons]
    · simp only [assocSet, if_neg h, assocFind_cons, if_neg h, ih]

theorem assocFind_assocSet_ne {k' k : κ} (v : β) (m : List (κ × β)) (h : k' ≠ k) :
    assocFind k' (assocSet k v m) = assocFind k' m := by
  have hk : ¬(k = k') := fun hh => h hh.symm
  induction m with
  | nil => simp [assocSet, assocFind_cons, hk, assocFind_nil]
  | cons p ps ih =>
    by_cases hp : p.1 = k
    · simp [assocSet, hp, assocFind_cons, hk]
    · simp only [assocSet, if_neg hp, assocFind_cons, ih]

theorem keys_assocUpdate (k : κ) (f : β → β) (m : List (κ × β)) :
    (assocUpdate k f m).map Prod.fst = m.map Prod.fst := by
  induction m with
  | nil => rfl
  | cons p ps ih =>
    by_cases h : p.1 = k
    · simp [assocUpdate, h]
    · simp only [assocUpdate, if_neg h, List.map_cons, ih]

theorem assocFind_assocUpdate_self {k : κ} {b : β} (f : β → β)
    {m : List (κ × β)} (h : assocFind k m = some b) :
    assocFind k (assocUpdate k f m) = some (f b) := by
  induction m with
  | nil => simp [assocFind_nil] at h
  | cons p ps ih =>
    by_cases hp : p.1 = k
    · rw [assocFind_cons, if_pos hp] at h
      cases h
      simp [assocUpdate, hp, assocFind_cons]
    · rw [assocFind_cons, if_neg hp] at h
      simp only [assocUpdate, if_neg hp, assocFind_cons, if_neg hp, ih h]

theorem assocFind_assocUpdate_ne {k' k : κ} (f : β → β) (m : List (κ × β))
    (h : k' ≠ k) : assocFind k' (assocUpdate k f m) = assocFind k' m := by
  have hk : ¬(k = k') := fun hh => h hh.symm
  induction m with
  | nil => rfl
  | cons p ps ih =>
    by_cases hp : p.1 = k
    · simp [assocUpdate, hp, assocFind_cons, hk]
    · simp only [assocUpdate, if_neg hp, assocFind_cons, ih]

theorem assocFind_append_of_some {k : κ} {b : β} {m : List (κ × β)}
    (m₂ : List (κ × β)) (h : assocFind k m = some b) :
    assocFind k (m ++ m₂) = some b := by
  induction m with
  | nil => simp [assocFind_nil] at h
  | cons p ps ih =>
    by_cases hp : p.1 = k
    · rw [assocFind_cons, if_pos hp] at h
      rw [List.cons_append, assocFind_cons, if_pos hp]
      exact h
    · rw [assocFind_cons, if_neg hp] at h
      rw [List.cons_append, assocFind_cons, if_neg hp]
      exact ih h

theorem assocFind_append_of_none {k : κ} {m : List (κ × β)}
    (m₂ : List (κ × β)) (h : assocFind k m = none) :
    assocFind k (m ++ m₂) = assocFind k m₂ := by
  induction m with
  | nil => simp
  | cons p ps ih =>
    by_cases hp : p.1 = k
    · rw [assocFind_cons, if_pos hp] at h
      simp at h
    · rw [assocFind_cons, if_neg hp] at h
      rw [List.cons_append, assocFind_cons, if_neg hp]
      exact ih h

theorem assocFind_eq_none_iff {k : κ} {m : List (κ × β)} :
    assocFind k m = none ↔ k ∉ m.map Prod.fst := by
  induction m with
  | nil => simp [assocFind_nil]
  | cons p ps ih =>
    rw [assocFind_cons]
    by_cases hp : p.1 = k
    · simp [hp]
    · rw [if_neg hp, List.map_cons]
      rw [ih]
      constructor
      · intro hn hor
        rcases List.mem_cons.mp hor with hh | hh
        · exact hp hh.symm
        · exact hn hh
      · intro hn hh
        exact hn (List.mem_cons_of_mem _ hh)

theorem mem_of_assocFind_eq_some {k : κ} {b : β} {m : List (κ × β)}
    (h : assocFind k m = some b) : (k, b) ∈ m := by
  induction m with
  | nil => simp [assocFind_nil] at h
  | cons p ps ih =>
    by_cases hp : p.1 = k
    · rw [assocFind_cons, if_pos hp] at h
      cases h
      have hpk : (k, p.2) = p := by
        rw [← hp]
      rw [hpk]
      exact List.mem_cons_self p ps
    · rw [assocFind_cons, if_neg hp] at h
      exact List.mem_cons_of_mem _ (ih h)

theorem assocFind_eq_some_of_mem_nodup {k : κ} {b : β} {m : List (κ × β)}
    (hnd : (m.map Prod.fst).Nodup) (hmem : (k, b) ∈ m) :
    assocFind k m = some b := by
  induction m with
  | nil => simp at hmem
  | cons p ps ih =>
    rw [List.map_cons, List.nodup_cons] at hnd
    rw [assocFind_cons]
    rcases List.mem_cons.mp hmem with hh | hh
    · rw [← hh]
      simp
    · have hk : ¬p.1 = k := by
        intro he
        apply hnd.1
        rw [he]
        exact List.mem_map_of_mem Prod.fst hh
      rw [if_neg hk]
      exact ih hnd.2 hh

theorem mem_keys_assocSet {a k : κ} (v : β) (m : List (κ × β)) :
    a ∈ (assocSet k v m).map Prod.fst ↔ a = k ∨ a ∈ m.map Prod.fst := by
  induction m with
  | nil => simp [assocSet]
  | cons p ps ih =>
    by_cases hp : p.1 = k
    · simp [assocSet, hp]
    · simp only [assocSet, if_neg hp, List.map_cons, List.mem_cons, ih]
      tauto

theorem nodup_keys_assocSet {k : κ} (v : β) {m : List (κ × β)}
    (h : (m.map Prod.fst).Nodup) : ((assocSet k v m).map Prod.fst).Nodup := by
  induction m with
  | nil => simp [assocSet]
  | cons p ps ih =>
    rw [List.map_cons, List.nodup_cons] at h
    by_cases hp : p.1 = k
    · simp only [assocSet, if_pos hp, List.map_cons, List.nodup_cons]
      exact ⟨hp ▸ h.1, h.2⟩
    · simp only [assocSet, if_neg hp, List.map_cons, List.nodup_cons]
      refine ⟨?_, ih h.2⟩
      intro hmem
      rcases (mem_keys_assocSet v ps).mp hmem with hh | hh
      · exact hp hh
      · exact h.1 hh

theorem assocFind_assocErase_self {k : κ} {m : List (κ × β)}
    (hnd : (m.map Prod.fst).Nodup) : assocFind k (assocErase k m) = none := by
  induction m with
  | nil => rfl
  | cons p ps ih =>
    rw [List.map_cons, List.nodup_cons] at hnd
    by_cases hp : p.1 = k
    · rw [assocErase, if_pos hp, assocFind_eq_none_iff]
      intro hmem
      apply hnd.1
      rw [hp]
      exact hmem
    · rw [assocErase, if_neg hp, assocFind_cons, if_neg hp]
      exact ih hnd.2

end AssocLemmas

/-! ## Lemmas: the propagation traversal -/

theorem nodesMono_refl (m : List (NodeKey × PropNode)) : NodesMono m m := by
  intro k n h
  exact ⟨n, h, le_refl _, rfl, rfl, rfl⟩

theorem nodesMono_trans {a b c : List (NodeKey × PropNode)}
    (h1 : NodesMono a b) (h2 : NodesMono b c) : NodesMono a c := by
  intro k n h
  obtain ⟨n1, hb, hs1, hd1, hi1, ht1⟩ := h1 k n h
  obtain ⟨n2, hc, hs2, hd2, hi2, ht2⟩ := h2 k n1 hb
  exact ⟨n2, hc, le_trans hs1 hs2, hd2.trans hd1, hi2.trans hi1, ht2.trans ht1⟩

theorem stepOk_refl (st : PropState) : StepOk st st :=
  ⟨nodesMono_refl _, fun _ h => h, id, id⟩

theorem stepOk_trans {a b c : PropState} (h1 : StepOk a b) (h2 : StepOk b c) :
    StepOk a c :=
  ⟨nodesMono_trans h1.1 h2.1,
   fun v hv => h2.2.1 v (h1.2.1 v hv),
   fun hi => h2.2.2.1 (h1.2.2.1 hi),
   fun hn => h2.2.2.2 (h1.2.2.2 hn)⟩

theorem lookupNode_eq_assocFind (k : NodeKey) (m : List (NodeKey × PropNode)) :
    lookupNode k m = assocFind k m := rfl

theorem upsertTarget_eq_update {tKey : NodeKey} {e : ImpactEdge} {pe : PathEntry}
    {next : ℚ} {depth : ℕ} {m : List (NodeKey × PropNode)} {b : PropNode}
    (h0 : lookupNode tKey m = some b) :
    upsertTarget tKey e pe next depth m =
      assocUpdate tKey
        (fun n =>
          { n with impactScore := max n.impactScore next, path := n.path ++ [pe] })
        m := by
  unfold upsertTarget
  rw [h0]
  rfl

theorem upsertTarget_eq_append {tKey : NodeKey} {e : ImpactEdge} {pe : PathEntry}
    {next : ℚ} {depth : ℕ} {m : List (NodeKey × PropNode)}
    (h0 : lookupNode tKey m = none) :
    upsertTarget tKey e pe next depth m =
      m ++ [(tKey, { id := e.targetId, type := e.targetType, impactScore := next,
                     depth := depth + 1, path := [pe] })] := by
  unfold upsertTarget
  rw [h0]

theorem nodesMono_upsertTarget (tKey : NodeKey) (e : ImpactEdge) (pe : PathEntry)
    (next : ℚ) (depth : ℕ) (m : List (NodeKey × PropNode)) :
    NodesMono m (upsertTarget tKey e pe next depth m) := by
  intro k n hk
  cases h0 : lookupNode tKey m with
  | some b =>
    rw [upsertTarget_eq_update h0]
    by_cases hkt : k = tKey
    · subst hkt
      refine ⟨_, assocFind_assocUpdate_self _ hk, ?_, rfl, rfl, rfl⟩
      exact le_max_left _ _
    · exact ⟨n, (assocFind_assocUpdate_ne _ _ hkt).trans hk, le_refl _, rfl, rfl, rfl⟩
  | none =>
    rw [upsertTarget_eq_append h0]
    exact ⟨n, assocFind_append_of_some _ hk, le_refl _, rfl, rfl, rfl⟩

theorem nodesNodup_upsertTarget (tKey : NodeKey) (e : ImpactEdge) (pe : PathEntry)
    (next : ℚ) (depth : ℕ) {m : List (NodeKey × PropNode)}
    (hnd : (m.map Prod.fst).Nodup) :
    ((upsertTarget tKey e pe next depth m).map Prod.fst).Nodup := by
  cases h0 : lookupNode tKey m with
  | some b =>
    rw [upsertTarget_eq_update h0, keys_assocUpdate]
    exact hnd
  | none =>
    rw [upsertTarget_eq_append h0, List.map_append, List.nodup_append]
    refine ⟨hnd, List.nodup_singleton _, ?_⟩
    intro a ha hb
    simp at hb
    rw [hb] at ha
    exact assocFind_eq_none_iff.mp h0 ha

theorem isSome_lookupNode_upsertTarget (tKey : NodeKey) (e : ImpactEdge)
    (pe : PathEntry) (next : ℚ) (depth : ℕ) (m : List (NodeKey × PropNode)) :
    (lookupNode tKey (upsertTarget tKey e pe next depth m)).isSome := by
  cases h0 : lookupNode tKey m with
  | some b =>
    rw [upsertTarget_eq_update h0, lookupNode_eq_assocFind,
      assocFind_assocUpdate_self _ h0]
    rfl
  | none =>
    rw [upsertTarget_eq_append h0, lookupNode_eq_assocFind,
      assocFind_append_of_none _ h0, assocFind_cons]
    simp

theorem visitKey_mkPathEntry (cur : NodeKey) (e : ImpactEdge) :
    (mkPathEntry cur e).visitKey = (cur, e.targetKey) := by
  simp [mkPathEntry, PathEntry.visitKey, ImpactEdge.targetKey]

theorem stepOk_bfsEdge (P : PropConfig) (expand : ExpandFn)
    (hexp : ∀ k i d st, StepOk st (expand k i d st))
    (e : ImpactEdge) (cur : NodeKey) (imp : ℚ) (depth : ℕ) (st : PropState) :
    StepOk st (bfsEdge P expand e cur imp depth st) := by
  rw [bfsEdge]
  by_cases hskip : edgeSkipped P e = true
  · rw [if_pos hskip]
    exact stepOk_refl st
  rw [if_neg hskip]
  by_cases hv : (cur, e.targetKey) ∈ st.visited
  · rw [if_pos hv]
    exact stepOk_refl st
  rw [if_neg hv]
  by_cases hth : propagatedImpact imp e < P.impactThreshold
  · rw [if_pos hth]
    refine ⟨nodesMono_refl _, fun v hmem => List.mem_cons_of_mem _ hmem, ?_, id⟩
    intro hinv
    exact ⟨hinv.1, fun pe hpe => List.mem_cons_of_mem _ (hinv.2 pe hpe)⟩
  rw [if_neg hth]
  refine stepOk_trans ?_ (hexp _ _ _ _)
  refine ⟨nodesMono_upsertTarget _ _ _ _ _ _,
    fun v hmem => List.mem_cons_of_mem _ hmem, ?_, ?_⟩
  · intro hinv
    constructor
    · rw [List.map_append, List.nodup_append]
      refine ⟨hinv.1, by simp, ?_⟩
      intro a ha hb
      simp [visitKey_mkPathEntry] at hb
      rw [hb] at ha
      obtain ⟨pe0, hpe0, hkey⟩ := List.mem_map.mp ha
      exact hv (hkey ▸ hinv.2 pe0 hpe0)
    · intro pe hpe
      rcases List.mem_append.mp hpe with hh | hh
      · exact List.mem_cons_of_mem _ (hinv.2 pe hh)
      · simp at hh
        rw [hh, visitKey_mkPathEntry]
        exact List.mem_cons_self _ _
  · intro hnd
    exact nodesNodup_upsertTarget _ _ _ _ _ hnd

theorem stepOk_bfsEdges (P : PropConfig) (expand : ExpandFn)
    (hexp : ∀ k i d st, StepOk st (expand k i d st)) :
    ∀ (es : List ImpactEdge) (cur : NodeKey) (imp : ℚ) (depth : ℕ)
      (st : PropState), StepOk st (bfsEdges P expand es cur imp depth st) := by
  intro es
  induction es with
  | nil =>
    intro cur imp depth st
    exact stepOk_refl st
  | cons e rest ih =>
    intro cur imp depth st
    rw [bfsEdges]
    exact stepOk_trans (stepOk_bfsEdge P expand hexp e cur imp depth st)
      (ih cur imp depth _)

theorem stepOk_bfsNode (P : PropConfig) (g : List ImpactEdge) :
    ∀ (fuel : ℕ) (cur : NodeKey) (imp : ℚ) (depth : ℕ) (st : PropState),
      StepOk st (bfsNode P g fuel cur imp depth st) := by
  intro fuel
  induction fuel with
  | zero =>
    intro cur imp depth st
    exact stepOk_refl st
  | succ fuel ih =>
    intro cur imp depth st
    rw [bfsNode]
    by_cases hth : imp < P.impactThreshold
    · rw [if_pos hth]
      exact stepOk_refl st
    · rw [if_neg hth]
      exact stepOk_bfsEdges P (bfsNode P g fuel) ih _ cur imp depth st

/-! ## Lemmas: whole propagation runs -/

/-- The initial state of a propagation run. -/
theorem propagate_eq (P : PropConfig) (g : List ImpactEdge)
    (sourceType : EntityType) (sourceId : String) (initialImpact : ℚ) :
    propagate P g sourceType sourceId initialImpact =
      (let st := bfsNode P g P.maxDepth (sourceType, sourceId) initialImpact 0
        { nodes := [((sourceType, sourceId),
            { id := sourceId, type := sourceType, impactScore := initialImpact,
              depth := 0, path := [] })],
          edges := [], visited := [] }
       { sourceId := sourceId, sourceType := sourceType,
         totalAffected := st.nodes.length - 1,
         maxDepth := (st.nodes.map (fun p => p.2.depth)).foldl max 0,
         nodes := st.nodes, edges := st.edges }) := rfl

/-- The source node survives every propagation run at depth 0 with a
score at least the initial impact. -/
theorem propagate_source_node (P : PropConfig) (g : List ImpactEdge)
    (sourceType : EntityType) (sourceId : String) (initialImpact : ℚ) :
    ∃ n, lookupNode (sourceType, sourceId)
        (propagate P g sourceType sourceId initialImpact).nodes = some n ∧
      n.depth = 0 ∧ initialImpact ≤ n.impactScore ∧
      n.id = sourceId ∧ n.type = sourceType := by
  rw [propagate_eq]
  have h0 : lookupNode (sourceType, sourceId)
      (PropState.mk [((sourceType, sourceId),
        { id := sourceId, type := sourceType, impactScore := initialImpact,
          depth := 0, path := [] })] [] []).nodes =
      some { id := sourceId, type := sourceType, impactScore := initialImpact,
             depth := 0, path := [] } := by
    rw [lookupNode_eq_assocFind, assocFind_cons]
    simp
  obtain ⟨n', hfind, hs, hd, hi, ht⟩ :=
    (stepOk_bfsNode P g P.maxDepth (sourceType, sourceId) initialImpact 0
      (PropState.mk [((sourceType, sourceId),
        { id := sourceId, type := sourceType, impactScore := initialImpact,
          depth := 0, path := [] })] [] [])).1
      (sourceType, sourceId) _ h0
  exact ⟨n', hfind, hd, hs, hi, ht⟩

/-- The nodes map of every propagation result has pairwise distinct
keys. -/
theorem propagate_nodes_nodup (P : PropConfig) (g : List ImpactEdge)
    (sourceType : EntityType) (sourceId : String) (initialImpact : ℚ) :
    ((propagate P g sourceType sourceId initialImpact).nodes.map Prod.fst).Nodup := by
  rw [propagate_eq]
  exact (stepOk_bfsNode P g P.maxDepth (sourceType, sourceId) initialImpact 0 _).2.2.2
    (by simp [NodesNodup])

/-- The edge list of every propagation result has pairwise distinct
(source, target) key pairs. -/
theorem propagate_edges_nodup (P : PropConfig) (g : List ImpactEdge)
    (sourceType : EntityType) (sourceId : String) (initialImpact : ℚ) :
    (((propagate P g sourceType sourceId initialImpact).edges.map
      PathEntry.visitKey)).Nodup := by
  rw [propagate_eq]
  exact ((stepOk_bfsNode P g P.maxDepth (sourceType, sourceId) initialImpact 0 _).2.2.1
    (by constructor <;> simp [])).1

/-- A node with no outgoing edges in the graph is not expanded at all. -/
theorem bfsNode_no_outgoing (P : PropConfig) (g : List ImpactEdge) (fuel : ℕ)
    (cur : NodeKey) (imp : ℚ) (depth : ℕ) (st : PropState)
    (h : outgoingEdges g cur = []) :
    bfsNode P g fuel cur imp depth st = st := by
  cases fuel with
  | zero => rfl
  | succ fuel =>
    rw [bfsNode, h]
    by_cases hth : imp < P.impactThreshold
    · rw [if_pos hth]
    · rw [if_neg hth]
      rfl

/-- With no surviving outgoing edges at the source, the result contains
only the source node, zero affected entities and an empty edge list. -/
theorem propagate_no_outgoing (P : PropConfig) (g : List ImpactEdge)
    (sourceType : EntityType) (sourceId : String) (initialImpact : ℚ)
    (h : outgoingEdges g (sourceType, sourceId) = []) :
    (propagate P g sourceType sourceId initialImpact).nodes =
      [((sourceType, sourceId),
        { id := sourceId, type := sourceType, impactScore := initialImpact,
          depth := 0, path := [] })] ∧
    (propagate P g sourceType sourceId initialImpact).totalAffected = 0 ∧
    (propagate P g sourceType sourceId initialImpact).edges = [] := by
  rw [propagate_eq]
  rw [bfsNode_no_outgoing P g P.maxDepth _ initialImpact 0 _ h]
  exact ⟨rfl, rfl, rfl⟩

/-! ## Lemmas: threshold monotonicity of single-layer propagation -/

theorem lookupNode_upsertTarget_isSome_of {k tKey : NodeKey} {e : ImpactEdge}
    {pe : PathEntry} {next : ℚ} {depth : ℕ} {m : List (NodeKey × PropNode)}
    (h : (lookupNode k (upsertTarget tKey e pe next depth m)).isSome = true) :
    k = tKey ∨ (lookupNode k m).isSome = true := by
  by_cases hkt : k = tKey
  · exact Or.inl hkt
  · right
    cases h0 : lookupNode tKey m with
    | some b =>
      rw [upsertTarget_eq_update h0, lookupNode_eq_assocFind,
        assocFind_assocUpdate_ne _ _ hkt] at h
      exact h
    | none =>
      cases h1 : lookupNode k m with
      | some b => rfl
      | none =>
        rw [upsertTarget_eq_append h0, lookupNode_eq_assocFind,
          assocFind_append_of_none _ h1, assocFind_cons] at h
        rw [if_neg (fun hh => hkt hh.symm)] at h
        simp [assocFind_nil] at h

theorem isSome_mono_upsertTarget {k : NodeKey} (tKey : NodeKey) (e : ImpactEdge)
    (pe : PathEntry) (next : ℚ) (depth : ℕ) {m : List (NodeKey × PropNode)}
    (h : (lookupNode k m).isSome = true) :
    (lookupNode k (upsertTarget tKey e pe next depth m)).isSome = true := by
  obtain ⟨n, hn⟩ := Option.isSome_iff_exists.mp h
  obtain ⟨n', hn', -⟩ := nodesMono_upsertTarget tKey e pe next depth m k n hn
  rw [hn']
  rfl

/-- Skipping an edge depends only on the includeIndirect flag of the
configuration. -/
theorem edgeSkipped_congr {P₁ P₂ : PropConfig}
    (hincl : P₁.includeIndirect = P₂.includeIndirect) (e : ImpactEdge) :
    edgeSkipped P₁ e = edgeSkipped P₂ e := by
  unfold edgeSkipped
  rw [hincl]

/-- Paired processing of one edge at two thresholds with identity
expansion: visited sets stay equal and the higher-threshold node keys
stay included in the lower-threshold ones. -/
theorem bfsEdge_pair_mono (P₁ P₂ : PropConfig)
    (hincl : P₁.includeIndirect = P₂.includeIndirect)
    (hθ : P₁.impactThreshold ≤ P₂.impactThreshold)
    (eA eB : ExpandFn) (hA : ∀ k i d st, eA k i d st = st)
    (hB : ∀ k i d st, eB k i d st = st)
    (e : ImpactEdge) (cur : NodeKey) (imp : ℚ) (depth : ℕ)
    (stA stB : PropState)
    (hvis : stA.visited = stB.visited)
    (hkeys : ∀ k, (lookupNode k stB.nodes).isSome = true →
      (lookupNode k stA.nodes).isSome = true) :
    (bfsEdge P₁ eA e cur imp depth stA).visited =
      (bfsEdge P₂ eB e cur imp depth stB).visited ∧
    (∀ k, (lookupNode k (bfsEdge P₂ eB e cur imp depth stB).nodes).isSome = true →
      (lookupNode k (bfsEdge P₁ eA e cur imp depth stA).nodes).isSome = true) := by
  rw [bfsEdge, bfsEdge, edgeSkipped_congr hincl e]
  by_cases hskip : edgeSkipped P₂ e = true
  · rw [if_pos hskip, if_pos hskip]
    exact ⟨hvis, hkeys⟩
  rw [if_neg hskip, if_neg hskip]
  by_cases hmem : (cur, e.targetKey) ∈ stA.visited
  · have hmemB : (cur, e.targetKey) ∈ stB.visited := by
      rw [← hvis]
      exact hmem
    rw [if_pos hmem, if_pos hmemB]
    exact ⟨hvis, hkeys⟩
  have hmemB : (cur, e.targetKey) ∉ stB.visited := by
    rw [← hvis]
    exact hmem
  rw [if_neg hmem, if_neg hmemB]
  by_cases h1 : propagatedImpact imp e < P₁.impactThreshold
  · rw [if_pos h1, if_pos (lt_of_lt_of_le h1 hθ)]
    exact ⟨by simpa using hvis, hkeys⟩
  rw [if_neg h1]
  by_cases h2 : propagatedImpact imp e < P₂.impactThreshold
  · rw [if_pos h2, hA]
    refine ⟨by simpa using hvis, ?_⟩
    intro k hk
    exact isSome_mono_upsertTarget _ _ _ _ _ (hkeys k hk)
  · rw [if_neg h2, hA, hB]
    refine ⟨by simpa using hvis, ?_⟩
    intro k hk
    rcases lookupNode_upsertTarget_isSome_of hk with hkt | hk'
    · subst hkt
      exact isSome_lookupNode_upsertTarget _ _ _ _ _ _
    · exact isSome_mono_upsertTarget _ _ _ _ _ (hkeys k hk')

/-- Paired single-layer edge loop at two thresholds, by induction over
the adjacency list. -/
theorem bfsEdges_pair_mono (P₁ P₂ : PropConfig)
    (hincl : P₁.includeIndirect = P₂.includeIndirect)
    (hθ : P₁.impactThreshold ≤ P₂.impactThreshold)
    (eA eB : ExpandFn) (hA : ∀ k i d st, eA k i d st = st)
    (hB : ∀ k i d st, eB k i d st = st) :
    ∀ (es : List ImpactEdge) (cur : NodeKey) (imp : ℚ) (depth : ℕ)
      (stA stB : PropState),
      stA.visited = stB.visited →
      (∀ k, (lookupNode k stB.nodes).isSome = true →
        (lookupNode k stA.nodes).isSome = true) →
      (bfsEdges P₁ eA es cur imp depth stA).visited =
        (bfsEdges P₂ eB es cur imp depth stB).visited ∧
      (∀ k,
        (lookupNode k (bfsEdges P₂ eB es cur imp depth stB).nodes).isSome = true →
        (lookupNode k (bfsEdges P₁ eA es cur imp depth stA).nodes).isSome = true) := by
  intro es
  induction es with
  | nil =>
    intro cur imp depth stA stB hvis hkeys
    exact ⟨hvis, hkeys⟩
  | cons e rest ih =>
    intro cur imp depth stA stB hvis hkeys
    rw [bfsEdges, bfsEdges]
    obtain ⟨hvis1, hkeys1⟩ :=
      bfsEdge_pair_mono P₁ P₂ hincl hθ eA eB hA hB e cur imp depth stA stB hvis hkeys
    exact ih cur imp depth _ _ hvis1 hkeys1

/-- The nodes map of a propagation run, as a plain equation. -/
theorem propagate_nodes_def (P : PropConfig) (g : List ImpactEdge)
    (sT : EntityType) (sI : String) (init : ℚ) :
    (propagate P g sT sI init).nodes =
      (bfsNode P g P.maxDepth (sT, sI) init 0
        (PropState.mk [((sT, sI), PropNode.mk sI sT init 0 [])] [] [])).nodes := rfl

/-- Threshold monotonicity holds for single-layer propagation
(maxDepth one): every node key reached at the higher threshold is
reached at the lower one. -/
theorem propagate_depth1_threshold_mono (g : List ImpactEdge) (sT : EntityType)
    (sI : String) (init : ℚ) (incl : Bool) (θ₁ θ₂ : ℚ) (hθ : θ₁ ≤ θ₂)
    (k : NodeKey)
    (hk : (lookupNode k (propagate (PropConfig.mk 1 θ₂ incl) g sT sI init).nodes).isSome = true) :
    (lookupNode k (propagate (PropConfig.mk 1 θ₁ incl) g sT sI init).nodes).isSome = true := by
  have hred : ∀ (θ : ℚ) (st : PropState),
      bfsNode (PropConfig.mk 1 θ incl) g 1 (sT, sI) init 0 st =
      if init < θ then st
      else bfsEdges (PropConfig.mk 1 θ incl) (bfsNode (PropConfig.mk 1 θ incl) g 0)
        (outgoingEdges g (sT, sI)) (sT, sI) init 0 st :=
    fun θ st => rfl
  rw [propagate_nodes_def] at hk ⊢
  rw [show (PropConfig.mk 1 θ₂ incl).maxDepth = 1 from rfl, hred] at hk
  rw [show (PropConfig.mk 1 θ₁ incl).maxDepth = 1 from rfl, hred]
  by_cases h1 : init < θ₁
  · rw [if_pos h1]
    rw [if_pos (lt_of_lt_of_le h1 hθ)] at hk
    exact hk
  · rw [if_neg h1]
    by_cases h2 : init < θ₂
    · rw [if_pos h2] at hk
      obtain ⟨n, hn⟩ := Option.isSome_iff_exists.mp hk
      obtain ⟨n', hn', -⟩ :=
        (stepOk_bfsEdges (PropConfig.mk 1 θ₁ incl) (bfsNode (PropConfig.mk 1 θ₁ incl) g 0)
          (fun _ _ _ st => stepOk_refl st)
          (outgoingEdges g (sT, sI)) (sT, sI) init 0 _).1 k n hn
      rw [hn']
      rfl
    · rw [if_neg h2] at hk
      exact (bfsEdges_pair_mono (PropConfig.mk 1 θ₁ incl) (PropConfig.mk 1 θ₂ incl)
        rfl hθ _ _ (fun _ _ _ _ => rfl) (fun _ _ _ _ => rfl)
        (outgoingEdges g (sT, sI)) (sT, sI) init 0 _ _ rfl
        (fun _ h => h)).2 k hk

/-! ## Lemmas: condition evaluation -/

/-- The engine condition evaluation coincides with the amended claim on
every condition object. -/
theorem evaluateConditions_eq_amended (c : List (String × JSVal)) :
    evaluateConditions c = evaluateConditionsAmended c := by
  unfold evaluateConditions evaluateConditionsAmended evaluateThresholdAmended
  cases hreq : jsLookup "required" c with
  | none =>
    simp only [truthyOpt, Bool.false_eq_true, if_false]
    cases hth : jsLookup "threshold" c with
    | none => simp [truthyOpt]
    | some w =>
      by_cases hw : w.truthy = true
      · simp [truthyOpt, hw, numOpt]
      · simp [truthyOpt, hw, numOpt]
  | some v =>
    by_cases hv : v.truthy = true
    · simp [truthyOpt, hv]
    · simp only [truthyOpt, hv, Bool.false_eq_true, if_false, if_neg]
      cases hth : jsLookup "threshold" c with
      | none => simp [truthyOpt]
      | some w =>
        by_cases hw : w.truthy = true
        · simp [truthyOpt, hw, numOpt]
        · simp [truthyOpt, hw, numOpt]

/-! ## Lemmas: the stable descending sort -/

theorem mem_insertDescBy {α : Type} (f : α → ℚ) (a x : α) (l : List α) :
    x ∈ insertDescBy f a l ↔ x = a ∨ x ∈ l := by
  induction l with
  | nil => simp [insertDescBy]
  | cons b bs ih =>
    by_cases h : f b < f a
    · simp [insertDescBy, h]
    · simp [insertDescBy, h, ih]
      tauto

theorem mem_sortDescBy {α : Type} (f : α → ℚ) (x : α) (l : List α) :
    x ∈ sortDescBy f l ↔ x ∈ l := by
  induction l with
  | nil => simp [sortDescBy]
  | cons a as ih => simp [sortDescBy, mem_insertDescBy, ih]

theorem pairwise_insertDescBy {α : Type} (f : α → ℚ) (a : α) {l : List α}
    (h : l.Pairwise (fun x y => f y ≤ f x)) :
    (insertDescBy f a l).Pairwise (fun x y => f y ≤ f x) := by
  induction l with
  | nil => simp [insertDescBy]
  | cons b bs ih =>
    rw [List.pairwise_cons] at h
    by_cases hb : f b < f a
    · rw [insertDescBy, if_pos hb, List.pairwise_cons]
      constructor
      · intro y hy
        rcases List.mem_cons.mp hy with hy | hy
        · exact hy ▸ le_of_lt hb
        · exact le_trans (h.1 y hy) (le_of_lt hb)
      · exact List.pairwise_cons.mpr h
    · rw [insertDescBy, if_neg hb, List.pairwise_cons]
      refine ⟨?_, ih h.2⟩
      intro y hy
      rcases (mem_insertDescBy f a y bs).mp hy with hy | hy
      · exact hy ▸ not_lt.mp hb
      · exact h.1 y hy

theorem pairwise_sortDescBy {α : Type} (f : α → ℚ) (l : List α) :
    (sortDescBy f l).Pairwise (fun x y => f y ≤ f x) := by
  induction l with
  | nil => exact List.Pairwise.nil
  | cons a as ih => exact pairwise_insertDescBy f a ih

/-! ## Lemmas: set-union key iteration -/

theorem mem_dedupFirstAux (x : String) :
    ∀ (l seen : List String),
      x ∈ dedupFirstAux seen l ↔ x ∈ l ∧ x ∉ seen := by
  intro l
  induction l with
  | nil =>
    intro seen
    simp [dedupFirstAux]
  | cons a as ih =>
    intro seen
    by_cases ha : a ∈ seen
    · rw [dedupFirstAux, if_pos ha, ih]
      constructor
      · rintro ⟨h1, h2⟩
        exact ⟨List.mem_cons_of_mem _ h1, h2⟩
      · rintro ⟨h1, h2⟩
        rcases List.mem_cons.mp h1 with h3 | h3
        · exact absurd (h3 ▸ ha) h2
        · exact ⟨h3, h2⟩
    · rw [dedupFirstAux, if_neg ha]
      constructor
      · intro hx
        rcases List.mem_cons.mp hx with h1 | h1
        · subst h1
          exact ⟨List.mem_cons_self _ _, ha⟩
        · obtain ⟨h2, h3⟩ := (ih (a :: seen)).mp h1
          refine ⟨List.mem_cons_of_mem _ h2, ?_⟩
          intro hs
          exact h3 (List.mem_cons_of_mem _ hs)
      · rintro ⟨h1, h2⟩
        by_cases hxa : x = a
        · rw [hxa]
          exact List.mem_cons_self _ _
        · rcases List.mem_cons.mp h1 with h3 | h3
          · exact absurd h3 hxa
          · refine List.mem_cons_of_mem _ ((ih (a :: seen)).mpr ⟨h3, ?_⟩)
            intro hs
            rcases List.mem_cons.mp hs with hs | hs
            · exact hxa hs
            · exact h2 hs

theorem mem_unionKeys (k : String) (before after : List (String × ℚ)) :
    k ∈ unionKeys before after ↔
      k ∈ before.map Prod.fst ∨ k ∈ after.map Prod.fst := by
  rw [unionKeys, dedupFirst, mem_dedupFirstAux]
  simp

/-! ## Lemmas: risk aggregation -/

theorem lookupAgg_eq_assocFind (k : NodeKey) (m : List (NodeKey × RiskAgg)) :
    lookupAgg k m = assocFind k m := rfl

theorem addNodeRisk_eq_of_some {mult : ℚ} {regId : String}
    {m : List (NodeKey × RiskAgg)} {kn : NodeKey × PropNode} {b : RiskAgg}
    (h0 : lookupAgg kn.1 m = some b) :
    addNodeRisk mult regId m kn =
      assocUpdate kn.1
        (fun a =>
          { totalRisk := a.totalRisk + kn.2.impactScore * mult,
            factors := setFactor regId kn.2.impactScore a.factors })
        m := by
  unfold addNodeRisk
  rw [h0]
  rfl

theorem addNodeRisk_eq_of_none {mult : ℚ} {regId : String}
    {m : List (NodeKey × RiskAgg)} {kn : NodeKey × PropNode}
    (h0 : lookupAgg kn.1 m = none) :
    addNodeRisk mult regId m kn =
      assocUpdate kn.1
        (fun a =>
          { totalRisk := a.totalRisk + kn.2.impactScore * mult,
            factors := setFactor regId kn.2.impactScore a.factors })
        (m ++ [(kn.1, RiskAgg.mk 0 [])]) := by
  unfold addNodeRisk
  rw [h0]
  rfl

/-- The aggregation map after one node of one regulation is folded in:
the entry of the node key exists and carries the updated total and the
refreshed factor. -/
theorem lookupAgg_addNodeRisk_self (mult : ℚ) (regId : String)
    (m : List (NodeKey × RiskAgg)) (kn : NodeKey × PropNode) :
    ∃ a, lookupAgg kn.1 (addNodeRisk mult regId m kn) = some a ∧
      a.totalRisk = lookupTotal m kn.1 + kn.2.impactScore * mult ∧
      lookupFactor regId a.factors = some kn.2.impactScore := by
  cases h0 : lookupAgg kn.1 m with
  | some b =>
    rw [addNodeRisk_eq_of_some h0]
    refine ⟨_, assocFind_assocUpdate_self _ h0, ?_, ?_⟩
    · simp only [lookupTotal, h0]
    · exact assocFind_assocSet_self _ _ _
  | none =>
    rw [addNodeRisk_eq_of_none h0]
    have h1 : assocFind kn.1 (m ++ [(kn.1, RiskAgg.mk 0 [])]) =
        some (RiskAgg.mk 0 []) := by
      rw [assocFind_append_of_none _ h0, assocFind_cons]
      simp
    refine ⟨_, assocFind_assocUpdate_self _ h1, ?_, ?_⟩
    · simp only [lookupTotal, h0]
    · exact assocFind_assocSet_self _ _ _

/-- Folding one node into the aggregation map leaves other keys
untouched. -/
theorem lookupAgg_addNodeRisk_ne {k : NodeKey} (mult : ℚ) (regId : String)
    (m : List (NodeKey × RiskAgg)) (kn : NodeKey × PropNode) (hk : k ≠ kn.1) :
    lookupAgg k (addNodeRisk mult regId m kn) = lookupAgg k m := by
  cases h0 : lookupAgg kn.1 m with
  | some b =>
    rw [addNodeRisk_eq_of_some h0]
    exact assocFind_assocUpdate_ne _ _ hk
  | none =>
    rw [addNodeRisk_eq_of_none h0, lookupAgg_eq_assocFind,
      assocFind_assocUpdate_ne _ _ hk]
    cases h1 : lookupAgg k m with
    | some c =>
      exact assocFind_append_of_some _ h1
    | none =>
      rw [assocFind_append_of_none _ h1, assocFind_cons]
      rw [if_neg (fun hh => hk hh.symm)]
      rfl

theorem lookupTotal_addNodeRisk (mult : ℚ) (regId : String)
    (m : List (NodeKey × RiskAgg)) (kn : NodeKey × PropNode) (k : NodeKey) :
    lookupTotal (addNodeRisk mult regId m kn) k =
      lookupTotal m k + (if k = kn.1 then kn.2.impactScore * mult else 0) := by
  by_cases hk : k = kn.1
  · subst hk
    obtain ⟨a, ha, hat, -⟩ := lookupAgg_addNodeRisk_self mult regId m kn
    simp [lookupTotal, ha, hat]
  · simp only [lookupTotal, lookupAgg_addNodeRisk_ne mult regId m kn hk,
      if_neg hk, add_zero]

/-- The head-unfolding of the per-node contribution. -/
theorem nodeContribution_cons (mult : ℚ) (p : NodeKey × PropNode)
    (ps : List (NodeKey × PropNode)) (k : NodeKey) :
    nodeContribution mult (p :: ps) k =
      if p.1 = k then p.2.impactScore * mult else nodeContribution mult ps k := by
  unfold nodeContribution
  rw [lookupNode_eq_assocFind, assocFind_cons]
  by_cases hk : p.1 = k
  · rw [if_pos hk, if_pos hk]
  · rw [if_neg hk, if_neg hk, lookupNode_eq_assocFind]

theorem lookupTotal_foldl_addNodeRisk (mult : ℚ) (regId : String) (k : NodeKey) :
    ∀ (ns : List (NodeKey × PropNode)) (m : List (NodeKey × RiskAgg)),
      (ns.map Prod.fst).Nodup →
      lookupTotal (ns.foldl (addNodeRisk mult regId) m) k =
        lookupTotal m k + nodeContribution mult ns k := by
  intro ns
  induction ns with
  | nil =>
    intro m h
    simp [nodeContribution, lookupNode, assocFind]
  | cons p ps ih =>
    intro m h
    rw [List.map_cons, List.nodup_cons] at h
    rw [List.foldl_cons, ih _ h.2, lookupTotal_addNodeRisk, nodeContribution_cons]
    by_cases hk : p.1 = k
    · have hzero : nodeContribution mult ps k = 0 := by
        unfold nodeContribution
        have hnone : assocFind k ps = none := by
          rw [assocFind_eq_none_iff, ← hk]
          exact h.1
        rw [lookupNode_eq_assocFind, hnone]
      rw [hzero, if_pos hk, if_pos hk.symm]
      ring
    · rw [if_neg hk, if_neg (fun hh => hk hh.symm)]
      ring

theorem lookupTotal_processRegulation (g : List ImpactEdge)
    (m : List (NodeKey × RiskAgg)) (r : Regulation) (k : NodeKey) :
    lookupTotal (processRegulation g m r) k =
      lookupTotal m k + regContribution g r k := by
  unfold processRegulation regContribution
  rw [lookupTotal_foldl_addNodeRisk _ _ _ _ _
    (propagate_nodes_nodup defaultConfig g EntityType.REGULATION r.id 1)]

theorem lookupTotal_foldl_processRegulation (g : List ImpactEdge) (k : NodeKey) :
    ∀ (regs : List Regulation) (m : List (NodeKey × RiskAgg)),
      lookupTotal (regs.foldl (processRegulation g) m) k =
        lookupTotal m k + totalRiskOf regs g k := by
  intro regs
  induction regs with
  | nil =>
    intro m
    simp [totalRiskOf]
  | cons r rs ih =>
    intro m
    rw [List.foldl_cons, ih, lookupTotal_processRegulation]
    unfold totalRiskOf
    rw [List.map_cons, List.sum_cons]
    ring

theorem nodup_keys_addNodeRisk (mult : ℚ) (regId : String)
    {m : List (NodeKey × RiskAgg)} (kn : NodeKey × PropNode)
    (h : (m.map Prod.fst).Nodup) :
    ((addNodeRisk mult regId m kn).map Prod.fst).Nodup := by
  unfold addNodeRisk
  cases h0 : lookupAgg kn.1 m with
  | some b =>
    rw [show updateAgg kn.1 _ m = assocUpdate kn.1 _ m from rfl, keys_assocUpdate]
    exact h
  | none =>
    rw [show updateAgg kn.1 _ _ = assocUpdate kn.1 _ _ from rfl, keys_assocUpdate,
      List.map_append, List.nodup_append]
    refine ⟨h, List.nodup_singleton _, ?_⟩
    intro a ha hb
    simp at hb
    rw [hb] at ha
    exact assocFind_eq_none_iff.mp h0 ha

theorem nodup_keys_foldl_addNodeRisk (mult : ℚ) (regId : String) :
    ∀ (ns : List (NodeKey × PropNode)) (m : List (NodeKey × RiskAgg)),
      (m.map Prod.fst).Nodup →
      (((ns.foldl (addNodeRisk mult regId) m)).map Prod.fst).Nodup := by
  intro ns
  induction ns with
  | nil =>
    intro m h
    exact h
  | cons p ps ih =>
    intro m h
    rw [List.foldl_cons]
    exact ih _ (nodup_keys_addNodeRisk mult regId p h)

theorem nodup_keys_foldl_processRegulation (g : List ImpactEdge) :
    ∀ (regs : List Regulation) (m : List (NodeKey × RiskAgg)),
      (m.map Prod.fst).Nodup →
      ((regs.foldl (processRegulation g) m).map Prod.fst).Nodup := by
  intro regs
  induction regs with
  | nil =>
    intro m h
    exact h
  | cons r rs ih =>
    intro m h
    rw [List.foldl_cons]
    exact ih _ (nodup_keys_foldl_addNodeRisk _ _ _ m h)

/-! ## Lemmas: the per-regulation factor entry -/

theorem factorOk_addNodeRisk_ne {rid : String} {mult : ℚ} {rid' : String}
    {m : List (NodeKey × RiskAgg)} {kn : NodeKey × PropNode}
    (hne : kn.1 ≠ (EntityType.REGULATION, rid)) (hf : FactorOk rid m) :
    FactorOk rid (addNodeRisk mult rid' m kn) := by
  obtain ⟨a, ha, v, hv, h1⟩ := hf
  exact ⟨a, by
    rw [lookupAgg_addNodeRisk_ne mult rid' m kn (fun hh => hne hh.symm)]
    exact ha, v, hv, h1⟩

theorem factorOk_addNodeRisk_self_other {rid : String} {mult : ℚ} {rid' : String}
    {m : List (NodeKey × RiskAgg)} {kn : NodeKey × PropNode}
    (hkn : kn.1 = (EntityType.REGULATION, rid)) (hne : rid' ≠ rid)
    (hf : FactorOk rid m) :
    FactorOk rid (addNodeRisk mult rid' m kn) := by
  obtain ⟨a, ha, v, hv, h1⟩ := hf
  rw [← hkn] at ha
  rw [addNodeRisk_eq_of_some ha]
  refine ⟨{ totalRisk := a.totalRisk + kn.2.impactScore * mult, factors := setFactor rid' kn.2.impactScore a.factors }, ?_, v, ?_, h1⟩
  · rw [← hkn, lookupAgg_eq_assocFind]
    exact assocFind_assocUpdate_self _ ha
  · rw [show lookupFactor rid (setFactor rid' kn.2.impactScore a.factors) =
      assocFind rid (assocSet rid' kn.2.impactScore a.factors) from rfl]
    rw [assocFind_assocSet_ne _ _ (fun hh => hne hh.symm)]
    exact hv

theorem factorOk_addNodeRisk_self_same {rid : String} {mult : ℚ}
    {m : List (NodeKey × RiskAgg)} {kn : NodeKey × PropNode}
    (hkn : kn.1 = (EntityType.REGULATION, rid)) (hs : 1 ≤ kn.2.impactScore) :
    FactorOk rid (addNodeRisk mult rid m kn) := by
  obtain ⟨a, ha, hat, hafac⟩ := lookupAgg_addNodeRisk_self mult rid m kn
  rw [hkn] at ha
  exact ⟨a, ha, kn.2.impactScore, hafac, hs⟩

theorem factorOk_foldl_addNodeRisk {rid : String} (mult : ℚ) (rid' : String) :
    ∀ (ns : List (NodeKey × PropNode)) (m : List (NodeKey × RiskAgg)),
      FactorOk rid m →
      (∀ kn ∈ ns, kn.1 = (EntityType.REGULATION, rid) → rid' = rid →
        1 ≤ kn.2.impactScore) →
      FactorOk rid (ns.foldl (addNodeRisk mult rid') m) := by
  intro ns
  induction ns with
  | nil =>
    intro m hf _
    exact hf
  | cons kn ps ih =>
    intro m hf hsc
    rw [List.foldl_cons]
    refine ih _ ?_ (fun p hp => hsc p (List.mem_cons_of_mem _ hp))
    by_cases hkn : kn.1 = (EntityType.REGULATION, rid)
    · by_cases hr : rid' = rid
      · subst hr
        exact factorOk_addNodeRisk_self_same hkn
          (hsc kn (List.mem_cons_self _ _) hkn rfl)
      · exact factorOk_addNodeRisk_self_other hkn hr hf
    · exact factorOk_addNodeRisk_ne hkn hf

theorem factorOk_establish_foldl {rid : String} (mult : ℚ) :
    ∀ (ns : List (NodeKey × PropNode)) (m : List (NodeKey × RiskAgg)),
      (ns.map Prod.fst).Nodup →
      (∃ n, lookupNode (EntityType.REGULATION, rid) ns = some n ∧
        1 ≤ n.impactScore) →
      FactorOk rid (ns.foldl (addNodeRisk mult rid) m) := by
  intro ns
  induction ns with
  | nil =>
    intro m _ hex
    obtain ⟨n, hn, -⟩ := hex
    simp [lookupNode, assocFind] at hn
  | cons p ps ih =>
    intro m hnd hex
    rw [List.map_cons, List.nodup_cons] at hnd
    obtain ⟨n, hn, hs⟩ := hex
    rw [lookupNode_eq_assocFind, assocFind_cons] at hn
    rw [List.foldl_cons]
    by_cases hp : p.1 = (EntityType.REGULATION, rid)
    · rw [if_pos hp] at hn
      cases hn
      refine factorOk_foldl_addNodeRisk mult rid ps _
        (factorOk_addNodeRisk_self_same hp hs) ?_
      intro kn hkn hkeq _
      exfalso
      apply hnd.1
      rw [hp, ← hkeq]
      exact List.mem_map_of_mem Prod.fst hkn
    · rw [if_neg hp] at hn
      exact ih _ hnd.2 ⟨n, hn, hs⟩

theorem factorOk_processRegulation_self (g : List ImpactEdge)
    (m : List (NodeKey × RiskAgg)) (r : Regulation) :
    FactorOk r.id (processRegulation g m r) := by
  unfold processRegulation
  refine factorOk_establish_foldl _ _ _
    (propagate_nodes_nodup defaultConfig g EntityType.REGULATION r.id 1) ?_
  obtain ⟨n, hfind, -, hsc, -, -⟩ :=
    propagate_source_node defaultConfig g EntityType.REGULATION r.id 1
  exact ⟨n, hfind, hsc⟩

theorem factorOk_processRegulation_preserve (g : List ImpactEdge)
    {rid : String} (r' : Regulation) {m : List (NodeKey × RiskAgg)}
    (hf : FactorOk rid m) : FactorOk rid (processRegulation g m r') := by
  unfold processRegulation
  refine factorOk_foldl_addNodeRisk _ _ _ _ hf ?_
  intro kn hkn hkeq hreq
  obtain ⟨n, hfind, -, hsc, -, -⟩ :=
    propagate_source_node defaultConfig g EntityType.REGULATION r'.id 1
  have hmem : (kn.1, kn.2) ∈
      (propagate defaultConfig g EntityType.REGULATION r'.id 1).nodes := by
    exact hkn
  have h2 : lookupNode kn.1
      (propagate defaultConfig g EntityType.REGULATION r'.id 1).nodes =
      some kn.2 :=
    assocFind_eq_some_of_mem_nodup
      (propagate_nodes_nodup defaultConfig g EntityType.REGULATION r'.id 1) hmem
  rw [hkeq, ← hreq] at h2
  rw [h2] at hfind
  cases hfind
  exact hsc

theorem factorOk_foldl_processRegulation (g : List ImpactEdge) {rid : String} :
    ∀ (rs : List Regulation) (m : List (NodeKey × RiskAgg)),
      FactorOk rid m → FactorOk rid (rs.foldl (processRegulation g) m) := by
  intro rs
  induction rs with
  | nil =>
    intro m hf
    exact hf
  | cons r' rs ih =>
    intro m hf
    rw [List.foldl_cons]
    exact ih _ (factorOk_processRegulation_preserve g r' hf)

theorem factorOk_of_mem (g : List ImpactEdge) :
    ∀ (regs : List Regulation) (m : List (NodeKey × RiskAgg)) (r : Regulation),
      r ∈ regs → FactorOk r.id (regs.foldl (processRegulation g) m) := by
  intro regs
  induction regs with
  | nil =>
    intro m r hmem
    simp at hmem
  | cons r' rs ih =>
    intro m r hmem
    rw [List.foldl_cons]
    rcases List.mem_cons.mp hmem with hh | hh
    · subst hh
      exact factorOk_foldl_processRegulation g rs _
        (factorOk_processRegulation_self g m r)
    · exact ih _ r hh

/-! ## The claims -/

set_option maxRecDepth 8000

/-- Claim C1, counterexample: the condition object with required set to
the boolean false passes in the code (JavaScript truthiness skips the
falsy required value), while the claim demands that a present required
key alone decides and the edge be skipped; likewise threshold 0 passes,
and with both keys present a falsy required defers to threshold. -/
theorem C1_counterexample :
    evaluateConditions [("required", JSVal.vBool false)] = true ∧
    evaluateConditionsClaim [("required", JSVal.vBool false)] = false ∧
    evaluateConditions [("threshold", JSVal.vNum 0)] = true ∧
    evaluateConditionsClaim [("threshold", JSVal.vNum 0)] = false ∧
    evaluateConditions [("required", JSVal.vBool false), ("threshold", JSVal.vNum 5)] = true := by
  refine ⟨rfl, rfl, ?_, ?_, ?_⟩ <;> decide

/-- Claim C1, amended: the required key is consulted only when its value
is truthy, in which case the edge passes iff it is the boolean true;
otherwise the threshold key is consulted only when its value is truthy,
in which case the edge passes iff it is strictly positive; otherwise the
edge passes.  The engine computes exactly this on every condition
object. -/
theorem C1_amended_condition_evaluation :
    ∀ c : List (String × JSVal), evaluateConditions c = evaluateConditionsAmended c :=
  evaluateConditions_eq_amended

/-- Claim C2, counterexample: on the graph gMono with otherwise equal
configurations, the node T is reached at threshold 1/2 but not at the
strictly smaller threshold 1/10, because the weak path marks the edge
into T visited before the threshold check and thereby blocks the strong
path.  This refutes the claimed superset relation. -/
theorem C2_counterexample :
    ((1 : ℚ)/10 < 1/2) ∧
    (lookupNode (EntityType.DEPARTMENT, "T")
      (propagate (PropConfig.mk 10 (1/2) true) gMono EntityType.REGULATION "S" 1).nodes).isSome = true ∧
    (lookupNode (EntityType.DEPARTMENT, "T")
      (propagate (PropConfig.mk 10 (1/10) true) gMono EntityType.REGULATION "S" 1).nodes).isSome = false := by
  refine ⟨by norm_num, ?_, ?_⟩ <;>
  · simp only [propagate, bfsNode, bfsEdges, bfsEdge, outgoingEdges, edgeSkipped,
      propagatedImpact, upsertTarget, lookupNode, assocFind, updateNode, assocUpdate,
      mkPathEntry, gMono, mkDirect, IMPACT_TYPE_MULTIPLIERS,
      SEVERITY_WEIGHTS, ImpactEdge.sourceKey, ImpactEdge.targetKey, List.filter_cons,
      List.filter_nil, List.find?]
    try simp
    try norm_num
    try (simp only [propagate, bfsNode, bfsEdges, bfsEdge, outgoingEdges, edgeSkipped,
      propagatedImpact, upsertTarget, lookupNode, assocFind, updateNode, assocUpdate,
      mkPathEntry, gMono, mkDirect, IMPACT_TYPE_MULTIPLIERS,
      SEVERITY_WEIGHTS, ImpactEdge.sourceKey, ImpactEdge.targetKey, List.filter_cons,
      List.filter_nil, List.find?])
    try simp
    try norm_num
    try (simp only [propagate, bfsNode, bfsEdges, bfsEdge, outgoingEdges, edgeSkipped,
      propagatedImpact, upsertTarget, lookupNode, assocFind, updateNode, assocUpdate,
      mkPathEntry, gMono, mkDirect, IMPACT_TYPE_MULTIPLIERS,
      SEVERITY_WEIGHTS, ImpactEdge.sourceKey, ImpactEdge.targetKey, List.filter_cons,
      List.filter_nil, List.find?])
    try simp
    try norm_num
    try (rintro a b c (⟨⟨rfl, rfl⟩, -⟩ | ⟨⟨rfl, rfl⟩, -⟩ | ⟨⟨rfl, rfl⟩, -⟩) h <;> simp_all)

/-- Claim C2, amended: threshold monotonicity holds for single-layer
propagation (maxDepth one, where the visited marking cannot interact
across depths): for thresholds θ₁ < θ₂ on otherwise equal
configurations, every node key of the θ₂ result appears in the θ₁
result. -/
theorem C2_amended_threshold_monotone :
    ∀ (g : List ImpactEdge) (sT : EntityType) (sI : String) (init : ℚ)
      (incl : Bool) (θ₁ θ₂ : ℚ), θ₁ < θ₂ → ∀ k : NodeKey,
      (lookupNode k (propagate (PropConfig.mk 1 θ₂ incl) g sT sI init).nodes).isSome = true →
      (lookupNode k (propagate (PropConfig.mk 1 θ₁ incl) g sT sI init).nodes).isSome = true :=
  fun g sT sI init incl θ₁ θ₂ hθ k hk =>
    propagate_depth1_threshold_mono g sT sI init incl θ₁ θ₂ (le_of_lt hθ) k hk

/-- Witness for the amended claim C2 at a concrete input. -/
theorem C2_amended_threshold_monotone_witness :
    ((0 : ℚ) < 1) ∧
    (lookupNode (EntityType.REGULATION, "S")
      (propagate (PropConfig.mk 1 0 true) [] EntityType.REGULATION "S" 1).nodes).isSome = true :=
  ⟨by decide,
   C2_amended_threshold_monotone [] EntityType.REGULATION "S" 1 true 0 1
     (by decide) (EntityType.REGULATION, "S") (by rfl)⟩

/-- Claim C3: the source names the traversal BFS (propagateBFS, with the
doc comment calling it a BFS-based propagation algorithm), and the spec
promises breadth-first edge ordering, but the implementation recurses
into each accepted target before examining the next sibling edge, which
is depth-first.  On gOrder the code accepts the depth-1 expansion edge
A to C before the depth-0 expansion edge S to B, so the accepted order
is S-A, A-C, S-B instead of the breadth-first S-A, S-B, A-C. -/
theorem C3_traversal_is_depth_first :
    (propagate defaultConfig gOrder EntityType.REGULATION "S" 1).edges.map
      (fun pe => (pe.sourceId, pe.targetId)) = [("S", "A"), ("A", "C"), ("S", "B")] ∧
    (lookupNode (EntityType.DEPARTMENT, "B")
      (propagate defaultConfig gOrder EntityType.REGULATION "S" 1).nodes).map
      (fun n => n.depth) = some 1 ∧
    (lookupNode (EntityType.DEPARTMENT, "C")
      (propagate defaultConfig gOrder EntityType.REGULATION "S" 1).nodes).map
      (fun n => n.depth) = some 2 := by
  refine ⟨?_, ?_, ?_⟩ <;>
  · simp only [propagate, bfsNode, bfsEdges, bfsEdge, outgoingEdges, edgeSkipped,
      propagatedImpact, upsertTarget, lookupNode, assocFind, updateNode, assocUpdate,
      mkPathEntry, gOrder, mkDirect, defaultConfig, IMPACT_TYPE_MULTIPLIERS,
      SEVERITY_WEIGHTS, ImpactEdge.sourceKey, ImpactEdge.targetKey, List.filter_cons,
      List.filter_nil, List.find?]
    try simp
    try norm_num
    try (simp only [propagate, bfsNode, bfsEdges, bfsEdge, outgoingEdges, edgeSkipped,
      propagatedImpact, upsertTarget, lookupNode, assocFind, updateNode, assocUpdate,
      mkPathEntry, gOrder, mkDirect, defaultConfig, IMPACT_TYPE_MULTIPLIERS,
      SEVERITY_WEIGHTS, ImpactEdge.sourceKey, ImpactEdge.targetKey, List.filter_cons,
      List.filter_nil, List.find?])
    try simp
    try norm_num
    try (simp only [propagate, bfsNode, bfsEdges, bfsEdge, outgoingEdges, edgeSkipped,
      propagatedImpact, upsertTarget, lookupNode, assocFind, updateNode, assocUpdate,
      mkPathEntry, gOrder, mkDirect, defaultConfig, IMPACT_TYPE_MULTIPLIERS,
      SEVERITY_WEIGHTS, ImpactEdge.sourceKey, ImpactEdge.targetKey, List.filter_cons,
      List.filter_nil, List.find?])
    try simp
    try norm_num
    try exact ⟨_, _, _, ⟨⟨rfl, rfl⟩, rfl⟩, rfl⟩

/-- Claim C4, counterexample: on the two-edge cycle gCycleSource the
surviving path returns into the source regulation, whose severity weight
6/5 amplifies the returning impact, and the max update raises the source
score to 6/5, which differs from the initial impact 1 claimed to be kept
exactly. -/
theorem C4_counterexample :
    (lookupNode (EntityType.REGULATION, "S")
      (propagate defaultConfig gCycleSource EntityType.REGULATION "S" 1).nodes).map
      (fun n => (n.impactScore, n.depth)) = some (6/5, 0) ∧
    ((6 : ℚ)/5 ≠ 1) := by
  refine ⟨?_, by norm_num⟩
  simp only [propagate, bfsNode, bfsEdges, bfsEdge, outgoingEdges, edgeSkipped,
    propagatedImpact, upsertTarget, lookupNode, assocFind, updateNode, assocUpdate,
    mkPathEntry, gCycleSource, mkDirect, defaultConfig, IMPACT_TYPE_MULTIPLIERS,
    SEVERITY_WEIGHTS, ImpactEdge.sourceKey, ImpactEdge.targetKey, List.filter_cons,
    List.filter_nil, List.find?]
  try simp
  try norm_num
  try (simp only [propagate, bfsNode, bfsEdges, bfsEdge, outgoingEdges, edgeSkipped,
    propagatedImpact, upsertTarget, lookupNode, assocFind, updateNode, assocUpdate,
    mkPathEntry, gCycleSource, mkDirect, defaultConfig, IMPACT_TYPE_MULTIPLIERS,
    SEVERITY_WEIGHTS, ImpactEdge.sourceKey, ImpactEdge.targetKey, List.filter_cons,
    List.filter_nil, List.find?])
  try simp
  try norm_num
  try (simp only [propagate, bfsNode, bfsEdges, bfsEdge, outgoingEdges, edgeSkipped,
    propagatedImpact, upsertTarget, lookupNode, assocFind, updateNode, assocUpdate,
    mkPathEntry, gCycleSource, mkDirect, defaultConfig, IMPACT_TYPE_MULTIPLIERS,
    SEVERITY_WEIGHTS, ImpactEdge.sourceKey, ImpactEdge.targetKey, List.filter_cons,
    List.filter_nil, List.find?])
  try simp
  try norm_num
  try exact ⟨_, _, _, ⟨⟨rfl, rfl⟩, rfl⟩, rfl, rfl⟩

/-- Claim C4, amended: the returned nodes map always contains the source
node at depth 0 with impactScore at least the initial impact (a
surviving cyclic path back into the source can raise the score via the
max update, otherwise it stays exactly the initial impact), and when the
source has no active outgoing edges the result is the source alone with
totalAffected 0 and an empty edge list. -/
theorem C4_amended_source_node :
    (∀ (P : PropConfig) (g : List ImpactEdge) (sT : EntityType) (sI : String)
      (init : ℚ), ∃ n, lookupNode (sT, sI) (propagate P g sT sI init).nodes = some n ∧
        n.depth = 0 ∧ init ≤ n.impactScore ∧ n.id = sI ∧ n.type = sT) ∧
    (∀ (P : PropConfig) (g : List ImpactEdge) (sT : EntityType) (sI : String)
      (init : ℚ), outgoingEdges g (sT, sI) = [] →
        (propagate P g sT sI init).totalAffected = 0 ∧
        (propagate P g sT sI init).edges = [] ∧
        (propagate P g sT sI init).nodes = [((sT, sI), PropNode.mk sI sT init 0 [])]) :=
  ⟨propagate_source_node,
   fun P g sT sI init h =>
    ⟨(propagate_no_outgoing P g sT sI init h).2.1,
     (propagate_no_outgoing P g sT sI init h).2.2,
     (propagate_no_outgoing P g sT sI init h).1⟩⟩

/-- Witness for the amended claim C4 at a concrete input. -/
theorem C4_amended_source_node_witness :
    outgoingEdges [] (EntityType.REGULATION, "R1") = [] ∧
    (propagate defaultConfig [] EntityType.REGULATION "R1" 1).totalAffected = 0 ∧
    (propagate defaultConfig [] EntityType.REGULATION "R1" 1).edges = [] :=
  ⟨rfl,
   (C4_amended_source_node.2 defaultConfig [] EntityType.REGULATION "R1" 1 rfl).1,
   (C4_amended_source_node.2 defaultConfig [] EntityType.REGULATION "R1" 1 rfl).2.1⟩

/-- Claim C5: the traversal is total (the embedding is a terminating
function), each ordered (source, target) key pair is accepted at most
once in any run over any finite graph, and the two-node cycle scenario
ends with exactly two nodes. -/
theorem C5_cycle_safety :
    (∀ (P : PropConfig) (g : List ImpactEdge) (sT : EntityType) (sI : String)
      (init : ℚ),
      (((propagate P g sT sI init).edges.map PathEntry.visitKey)).Nodup) ∧
    (propagate defaultConfig gTwoCycle EntityType.DEPARTMENT "A" 1).nodes.length = 2 := by
  refine ⟨propagate_edges_nodup, ?_⟩
  simp only [propagate, bfsNode, bfsEdges, bfsEdge, outgoingEdges, edgeSkipped,
    propagatedImpact, upsertTarget, lookupNode, assocFind, updateNode, assocUpdate,
    mkPathEntry, gTwoCycle, mkDirect, defaultConfig, IMPACT_TYPE_MULTIPLIERS,
    SEVERITY_WEIGHTS, ImpactEdge.sourceKey, ImpactEdge.targetKey, List.filter_cons,
    List.filter_nil, List.find?]
  try simp
  try norm_num
  try (simp only [propagate, bfsNode, bfsEdges, bfsEdge, outgoingEdges, edgeSkipped,
    propagatedImpact, upsertTarget, lookupNode, assocFind, updateNode, assocUpdate,
    mkPathEntry, gTwoCycle, mkDirect, defaultConfig, IMPACT_TYPE_MULTIPLIERS,
    SEVERITY_WEIGHTS, ImpactEdge.sourceKey, ImpactEdge.targetKey, List.filter_cons,
    List.filter_nil, List.find?])
  try simp
  try norm_num
  try (simp only [propagate, bfsNode, bfsEdges, bfsEdge, outgoingEdges, edgeSkipped,
    propagatedImpact, upsertTarget, lookupNode, assocFind, updateNode, assocUpdate,
    mkPathEntry, gTwoCycle, mkDirect, defaultConfig, IMPACT_TYPE_MULTIPLIERS,
    SEVERITY_WEIGHTS, ImpactEdge.sourceKey, ImpactEdge.targetKey, List.filter_cons,
    List.filter_nil, List.find?])
  try simp
  try norm_num

/-- Claim C6, counterexample: calculateAllRisks seeds every propagation
with the engine default initial impact 1 rather than a severity-scaled
seed, so in the two-regulation scenario (R1 Critical and R2 Medium, each
with one Direct weight-1 edge into the department D1) the top row is D1
with totalRisk 1 * 2 + 1 * 1 = 3, baseRisk 3/2 and adjustedRisk 3, not
the claimed 5/2 and 5/4. -/
theorem C6_counterexample :
    ((calculateAllRisks scenarioRegs scenarioGraph).head?.map
      (fun r => (r.entityType, r.entityId, r.baseRiskScore, r.adjustedRiskScore, r.riskLevel)))
      = some (EntityType.DEPARTMENT, "D1", 3/2, 3, "Critical") ∧
    ((3 : ℚ) ≠ 5/2) ∧ ((3 : ℚ)/2 ≠ 5/4) := by
  refine ⟨?_, by norm_num, by norm_num⟩
  simp only [calculateAllRisks, processRegulation, addNodeRisk, updateAgg, assocUpdate,
    lookupAgg, assocFind, setFactor, assocSet, getSeverityMultiplier, getRiskLevel,
    sortDescBy, insertDescBy, scenarioRegs, scenarioGraph, propagate, bfsNode, bfsEdges,
    bfsEdge, outgoingEdges, edgeSkipped, propagatedImpact, upsertTarget, lookupNode,
    updateNode, mkPathEntry, mkDirect, defaultConfig, IMPACT_TYPE_MULTIPLIERS,
    SEVERITY_WEIGHTS, ImpactEdge.sourceKey, ImpactEdge.targetKey, List.filter_cons,
    List.filter_nil, List.find?, List.foldl_cons, List.foldl_nil]
  try simp
  try norm_num
  try (simp only [calculateAllRisks, processRegulation, addNodeRisk, updateAgg, assocUpdate,
    lookupAgg, assocFind, setFactor, assocSet, getSeverityMultiplier, getRiskLevel,
    sortDescBy, insertDescBy, scenarioRegs, scenarioGraph, propagate, bfsNode, bfsEdges,
    bfsEdge, outgoingEdges, edgeSkipped, propagatedImpact, upsertTarget, lookupNode,
    updateNode, mkPathEntry, mkDirect, defaultConfig, IMPACT_TYPE_MULTIPLIERS,
    SEVERITY_WEIGHTS, ImpactEdge.sourceKey, ImpactEdge.targetKey, List.filter_cons,
    List.filter_nil, List.find?, List.foldl_cons, List.foldl_nil])
  try simp
  try norm_num
  try (simp only [calculateAllRisks, processRegulation, addNodeRisk, updateAgg, assocUpdate,
    lookupAgg, assocFind, setFactor, assocSet, getSeverityMultiplier, getRiskLevel,
    sortDescBy, insertDescBy, scenarioRegs, scenarioGraph, propagate, bfsNode, bfsEdges,
    bfsEdge, outgoingEdges, edgeSkipped, propagatedImpact, upsertTarget, lookupNode,
    updateNode, mkPathEntry, mkDirect, defaultConfig, IMPACT_TYPE_MULTIPLIERS,
    SEVERITY_WEIGHTS, ImpactEdge.sourceKey, ImpactEdge.targetKey, List.filter_cons,
    List.filter_nil, List.find?, List.foldl_cons, List.foldl_nil])
  try simp
  try norm_num
  try (simp only [calculateAllRisks, processRegulation, addNodeRisk, updateAgg, assocUpdate,
    lookupAgg, assocFind, setFactor, assocSet, getSeverityMultiplier, getRiskLevel,
    sortDescBy, insertDescBy, scenarioRegs, scenarioGraph, propagate, bfsNode, bfsEdges,
    bfsEdge, outgoingEdges, edgeSkipped, propagatedImpact, upsertTarget, lookupNode,
    updateNode, mkPathEntry, mkDirect, defaultConfig, IMPACT_TYPE_MULTIPLIERS,
    SEVERITY_WEIGHTS, ImpactEdge.sourceKey, ImpactEdge.targetKey, List.filter_cons,
    List.filter_nil, List.find?, List.foldl_cons, List.foldl_nil])
  try simp
  try norm_num

/-- Claim C6, amended: the totalRisk aggregated for an entity equals the
sum over the regulations of the entity score in that regulation's
propagation (seeded with the engine default initial impact 1) times the
severity multiplier; every emitted row has baseRiskScore =
adjustedRiskScore / regulationsCount and riskLevel computed from the
base score; and the result list is sorted descending by
adjustedRiskScore. -/
theorem C6_amended_risk_aggregation :
    (∀ (regs : List Regulation) (g : List ImpactEdge) (k : NodeKey),
      lookupTotal (regs.foldl (processRegulation g) []) k = totalRiskOf regs g k) ∧
    (∀ (regs : List Regulation) (g : List ImpactEdge) (r : RiskCalculationResult),
      r ∈ calculateAllRisks regs g →
        r.adjustedRiskScore = totalRiskOf regs g (r.entityType, r.entityId) ∧
        r.baseRiskScore = r.adjustedRiskScore / (regs.length : ℚ) ∧
        r.riskLevel = getRiskLevel r.baseRiskScore) ∧
    (∀ (regs : List Regulation) (g : List ImpactEdge),
      (calculateAllRisks regs g).Pairwise
        (fun x y => y.adjustedRiskScore ≤ x.adjustedRiskScore)) := by
  have htotal : ∀ (regs : List Regulation) (g : List ImpactEdge) (k : NodeKey),
      lookupTotal (regs.foldl (processRegulation g) []) k = totalRiskOf regs g k := by
    intro regs g k
    rw [lookupTotal_foldl_processRegulation]
    simp [lookupTotal, lookupAgg, assocFind]
  refine ⟨htotal, ?_, ?_⟩
  · intro regs g r hr
    simp only [calculateAllRisks] at hr
    rw [mem_sortDescBy] at hr
    obtain ⟨p, hp, hrow⟩ := List.mem_map.mp hr
    obtain ⟨pk, pa⟩ := p
    have hnodup : (((regs.foldl (processRegulation g) []).map Prod.fst)).Nodup :=
      nodup_keys_foldl_processRegulation g regs [] (by simp)
    have hfind : lookupAgg pk (regs.foldl (processRegulation g) []) = some pa :=
      assocFind_eq_some_of_mem_nodup hnodup hp
    have hvalue : lookupTotal (regs.foldl (processRegulation g) []) pk = pa.totalRisk := by
      rw [lookupTotal, hfind]
    rw [← hrow]
    refine ⟨?_, rfl, rfl⟩
    show pa.totalRisk = totalRiskOf regs g (pk.1, pk.2)
    rw [← hvalue, htotal]
  · intro regs g
    simp only [calculateAllRisks]
    exact pairwise_sortDescBy _ _

/-- Witness for the amended claim C6 at a concrete input: the single
regulation R0 with no severity over the empty graph produces the single
row for R0 itself with adjusted risk 1. -/
theorem C6_amended_risk_aggregation_witness :
    (RiskCalculationResult.mk EntityType.REGULATION "R0" 1 1 "Critical" [("R0", 1)]).adjustedRiskScore
      = totalRiskOf [Regulation.mk "R0" none] []
          ((RiskCalculationResult.mk EntityType.REGULATION "R0" 1 1 "Critical" [("R0", 1)]).entityType,
           (RiskCalculationResult.mk EntityType.REGULATION "R0" 1 1 "Critical" [("R0", 1)]).entityId) ∧
    (RiskCalculationResult.mk EntityType.REGULATION "R0" 1 1 "Critical" [("R0", 1)]).baseRiskScore
      = (RiskCalculationResult.mk EntityType.REGULATION "R0" 1 1 "Critical" [("R0", 1)]).adjustedRiskScore
          / (([Regulation.mk "R0" none].length : ℚ)) ∧
    (RiskCalculationResult.mk EntityType.REGULATION "R0" 1 1 "Critical" [("R0", 1)]).riskLevel
      = getRiskLevel (RiskCalculationResult.mk EntityType.REGULATION "R0" 1 1 "Critical" [("R0", 1)]).baseRiskScore :=
  C6_amended_risk_aggregation.2.1 [Regulation.mk "R0" none] []
    (RiskCalculationResult.mk EntityType.REGULATION "R0" 1 1 "Critical" [("R0", 1)])
    (by
      simp only [calculateAllRisks, processRegulation, addNodeRisk, updateAgg, assocUpdate,
        lookupAgg, assocFind, setFactor, assocSet, getSeverityMultiplier, getRiskLevel,
        sortDescBy, insertDescBy, propagate, bfsNode, bfsEdges, bfsEdge, outgoingEdges,
        edgeSkipped, propagatedImpact, upsertTarget, lookupNode, updateNode, mkPathEntry,
        defaultConfig, IMPACT_TYPE_MULTIPLIERS, SEVERITY_WEIGHTS, ImpactEdge.sourceKey,
        ImpactEdge.targetKey, List.filter_cons, List.filter_nil, List.find?,
        List.foldl_cons, List.foldl_nil]
      try simp
      try norm_num
      try (simp only [calculateAllRisks, processRegulation, addNodeRisk, updateAgg, assocUpdate,
        lookupAgg, assocFind, setFactor, assocSet, getSeverityMultiplier, getRiskLevel,
        sortDescBy, insertDescBy, propagate, bfsNode, bfsEdges, bfsEdge, outgoingEdges,
        edgeSkipped, propagatedImpact, upsertTarget, lookupNode, updateNode, mkPathEntry,
        defaultConfig, IMPACT_TYPE_MULTIPLIERS, SEVERITY_WEIGHTS, ImpactEdge.sourceKey,
        ImpactEdge.targetKey, List.filter_cons, List.filter_nil, List.find?,
        List.foldl_cons, List.foldl_nil])
      try simp
      try norm_num)

/-- Claim C7, code bug: the per-event invalidation helpers ignore their
tenantId parameter and invalidate by the global dependency-graph tag, so
an invalidation performed on behalf of tenant A evicts an entry stored
by the distinct tenant B. -/
theorem C7_cross_tenant_eviction :
    ("A" ≠ "B") ∧
    (mapFind (MemoryCache.generateKey "B" "graph")
      (MemoryCache.set 0 "B" "graph" (42 : ℕ) none
        (some ["dependency-graph"]) emptyCache).entries).isSome = true ∧
    mapFind (MemoryCache.generateKey "B" "graph")
      (MemoryCache.invalidateEdge "A"
        (MemoryCache.set 0 "B" "graph" (42 : ℕ) none
          (some ["dependency-graph"]) emptyCache)).entries = none := by
  refine ⟨by decide, ?_, ?_⟩ <;> rfl

/-- Claim C8: a set followed by a get within the TTL returns exactly the
stored value; a get once the TTL has elapsed returns none and counts
exactly one eviction for the expired entry; the entry is dropped inline,
so any later get finds nothing and leaves the eviction counter
unchanged. -/
theorem C8_cache_round_trip :
    ∀ (α : Type) (now₀ nowLive nowExp nowLater : ℤ) (tenant key : String)
      (data : α) (ttl : Option ℤ) (tags : Option (List String))
      (c : CacheState α), (c.entries.map Prod.fst).Nodup →
      (nowLive ≤ now₀ + ttl.getD (30 * 60 * 1000) →
        (MemoryCache.get nowLive tenant key
          (MemoryCache.set now₀ tenant key data ttl tags c)).1 = some data) ∧
      (now₀ + ttl.getD (30 * 60 * 1000) < nowExp →
        (MemoryCache.get nowExp tenant key
          (MemoryCache.set now₀ tenant key data ttl tags c)).1 = none ∧
        (MemoryCache.get nowExp tenant key
          (MemoryCache.set now₀ tenant key data ttl tags c)).2.stats.evictions
          = c.stats.evictions + 1 ∧
        (MemoryCache.get nowLater tenant key
          ((MemoryCache.get nowExp tenant key
            (MemoryCache.set now₀ tenant key data ttl tags c)).2)).1 = none ∧
        (MemoryCache.get nowLater tenant key
          ((MemoryCache.get nowExp tenant key
            (MemoryCache.set now₀ tenant key data ttl tags c)).2)).2.stats.evictions
          = c.stats.evictions + 1) := by
  intro α now₀ nowLive nowExp nowLater tenant key data ttl tags c hnodup
  constructor
  · intro h
    simp only [MemoryCache.get, MemoryCache.set, mapFind, mapSet, assocFind_assocSet_self]
    rw [if_neg (not_lt.mpr h)]
  · intro h
    have herase : assocFind (MemoryCache.generateKey tenant key)
        (assocErase (MemoryCache.generateKey tenant key)
          (assocSet (MemoryCache.generateKey tenant key)
            (CacheEntry.mk data (now₀ + ttl.getD (30 * 60 * 1000)) now₀ 1
              (tenant :: tags.getD [])) c.entries)) = (none : Option (CacheEntry α)) :=
      assocFind_assocErase_self (nodup_keys_assocSet _ hnodup)
    simp only [MemoryCache.get, MemoryCache.set, mapFind, mapSet, mapErase,
      assocFind_assocSet_self]
    rw [if_pos h]
    simp only [herase]
    simp

/-- Witness for claim C8 at a concrete input: tenant t stores 7 under k
at time 0 with ttl 10; the value is read back at time 5; at time 20 the
read misses, evicts once, and a further read at time 30 misses without a
second eviction. -/
theorem C8_cache_round_trip_witness :
    ((MemoryCache.get 5 "t" "k"
      (MemoryCache.set 0 "t" "k" (7 : ℕ) (some 10) none emptyCache)).1 = some 7) ∧
    ((MemoryCache.get 20 "t" "k"
      (MemoryCache.set 0 "t" "k" (7 : ℕ) (some 10) none emptyCache)).1 = none) ∧
    ((MemoryCache.get 20 "t" "k"
      (MemoryCache.set 0 "t" "k" (7 : ℕ) (some 10) none emptyCache)).2.stats.evictions
      = (emptyCache : CacheState ℕ).stats.evictions + 1) ∧
    ((MemoryCache.get 30 "t" "k"
      ((MemoryCache.get 20 "t" "k"
        (MemoryCache.set 0 "t" "k" (7 : ℕ) (some 10) none emptyCache)).2)).1 = none) ∧
    ((MemoryCache.get 30 "t" "k"
      ((MemoryCache.get 20 "t" "k"
        (MemoryCache.set 0 "t" "k" (7 : ℕ) (some 10) none emptyCache)).2)).2.stats.evictions
      = (emptyCache : CacheState ℕ).stats.evictions + 1) := by
  have h := C8_cache_round_trip ℕ 0 5 20 30 "t" "k" 7 (some 10) none emptyCache
    (by simp [emptyCache])
  exact ⟨h.1 (by decide), (h.2 (by decide)).1, (h.2 (by decide)).2.1,
    (h.2 (by decide)).2.2.1, (h.2 (by decide)).2.2.2⟩

/-- Claim C9: every emitted timeline delta row reads its before and
after values from the two state maps with default 0 and carries delta =
after minus before with absolute value strictly above 1/100 and
percentChange = delta / before times 100 when before is nonzero and 100
otherwise; every key of either map whose absolute difference exceeds
1/100 is represented; and the list is sorted descending by absolute
delta. -/
theorem C9_timeline_deltas :
    (∀ (before after : List (String × ℚ)) (d : SimulationDelta),
      d ∈ calculateDeltas before after →
        d.beforeValue = lookupQ before d.entityKey ∧
        d.afterValue = lookupQ after d.entityKey ∧
        d.delta = lookupQ after d.entityKey - lookupQ before d.entityKey ∧
        1/100 < |d.delta| ∧
        d.percentChange = (if lookupQ before d.entityKey ≠ 0
          then d.delta / lookupQ before d.entityKey * 100 else 100)) ∧
    (∀ (before after : List (String × ℚ)) (k : String),
      (k ∈ before.map Prod.fst ∨ k ∈ after.map Prod.fst) →
      1/100 < |lookupQ after k - lookupQ before k| →
      ∃ d ∈ calculateDeltas before after, d.entityKey = k) ∧
    (∀ (before after : List (String × ℚ)),
      (calculateDeltas before after).Pairwise (fun x y => |y.delta| ≤ |x.delta|)) := by
  refine ⟨?_, ?_, ?_⟩
  · intro before after d hd
    simp only [calculateDeltas] at hd
    rw [mem_sortDescBy] at hd
    obtain ⟨k, hk, he⟩ := List.mem_filterMap.mp hd
    by_cases hδ : 1/100 < |lookupQ after k - lookupQ before k|
    · rw [if_pos hδ] at he
      obtain rfl := Option.some.inj he
      exact ⟨rfl, rfl, rfl, hδ, rfl⟩
    · rw [if_neg hδ] at he
      exact absurd he (by simp)
  · intro before after k hk hδ
    refine ⟨SimulationDelta.mk k (lookupQ before k) (lookupQ after k)
      (lookupQ after k - lookupQ before k)
      (if lookupQ before k ≠ 0
        then (lookupQ after k - lookupQ before k) / lookupQ before k * 100 else 100),
      ?_, rfl⟩
    simp only [calculateDeltas]
    rw [mem_sortDescBy]
    refine List.mem_filterMap.mpr ⟨k, (mem_unionKeys k before after).mpr hk, ?_⟩
    rw [if_pos hδ]
  · intro before after
    simp only [calculateDeltas]
    exact pairwise_sortDescBy _ _

/-- Witness for claim C9 at a concrete input: from the empty before
state to the state mapping x to 1, the key x is represented and the
emitted singleton row has delta 1 above the 1/100 cut. -/
theorem C9_timeline_deltas_witness :
    (∃ d ∈ calculateDeltas [] [("x", (1 : ℚ))], d.entityKey = "x") ∧
    ((1 : ℚ)/100 < |(SimulationDelta.mk "x" 0 1 1 100).delta|) ∧
    (calculateDeltas [] [("x", (1 : ℚ))]).Pairwise (fun x y => |y.delta| ≤ |x.delta|) :=
  ⟨C9_timeline_deltas.2.1 [] [("x", (1 : ℚ))] "x" (by simp)
    (by
      simp [lookupQ, List.find?]
      norm_num),
   (C9_timeline_deltas.1 [] [("x", (1 : ℚ))] (SimulationDelta.mk "x" 0 1 1 100)
    (by
      simp only [calculateDeltas, unionKeys, dedupFirst, dedupFirstAux, lookupQ,
        sortDescBy, insertDescBy, List.find?, List.map_cons, List.map_nil,
        List.filterMap_cons, List.filterMap_nil]
      try simp
      try norm_num
      try (simp only [calculateDeltas, unionKeys, dedupFirst, dedupFirstAux, lookupQ,
        sortDescBy, insertDescBy, List.find?, List.map_cons, List.map_nil,
        List.filterMap_cons, List.filterMap_nil])
      try simp
      try norm_num
      try (rw [mem_sortDescBy])
      try simp)).2.2.2.1,
   C9_timeline_deltas.2.2 [] [("x", (1 : ℚ))]⟩

/-- Claim C10: the risk results of calculateAllRisks score the source
regulations themselves — for every regulation of the run the result list
contains a row keyed REGULATION and the regulation id, whose riskFactors
carry the regulation's own factor of at least the seed impact 1. -/
theorem C10_regulations_scored :
    ∀ (regs : List Regulation) (g : List ImpactEdge) (r : Regulation),
      r ∈ regs →
      ∃ res ∈ calculateAllRisks regs g,
        res.entityType = EntityType.REGULATION ∧ res.entityId = r.id ∧
        ∃ v, lookupFactor r.id res.riskFactors = some v ∧ 1 ≤ v := by
  intro regs g r hmem
  obtain ⟨a, ha, v, hv, h1⟩ := factorOk_of_mem g regs [] r hmem
  have hmem2 : ((EntityType.REGULATION, r.id), a) ∈ regs.foldl (processRegulation g) [] :=
    mem_of_assocFind_eq_some ha
  refine ⟨RiskCalculationResult.mk EntityType.REGULATION r.id
    (a.totalRisk / ((regs.length : ℚ))) a.totalRisk
    (getRiskLevel (a.totalRisk / ((regs.length : ℚ)))) a.factors, ?_, rfl, rfl, v, hv, h1⟩
  simp only [calculateAllRisks]
  rw [mem_sortDescBy]
  exact List.mem_map.mpr ⟨((EntityType.REGULATION, r.id), a), hmem2, rfl⟩

/-- Witness for claim C10 at a concrete input: the run with the single
regulation R0 over the empty graph scores R0 itself. -/
theorem C10_regulations_scored_witness :
    ∃ res ∈ calculateAllRisks [Regulation.mk "R0" none] [],
      res.entityType = EntityType.REGULATION ∧
      res.entityId = (Regulation.mk "R0" none).id ∧
      ∃ v, lookupFactor (Regulation.mk "R0" none).id res.riskFactors = some v ∧ 1 ≤ v :=
  C10_regulations_scored [Regulation.mk "R0" none] [] (Regulation.mk "R0" none) (by simp)

end RegulatoryImpactChain
